import Mathlib

/-!
Shallow embedding of the review normalization and date-reconciliation
pipeline of the reviewinsighter repository (Python sources under
`server/`), together with proofs settling the frozen claims.

Modelling conventions:
* Python strings are `String` / `List Char`; `str.lower` is per-character
  ASCII lowering; the regex classes `\d` and `\s` are modelled as ASCII
  digits and ASCII whitespace.
* `datetime.date` is the `PyDate` structure; construction validates the
  Gregorian calendar as Python does, comparison is lexicographic.
* Network input (HTTP GET bodies, `Last-Modified` values already parsed
  from the RFC-1123 header by `datetime.strptime`, search API responses)
  is supplied by explicit environment records; a `none` answer stands for
  any request failure, timeout or non-200 status, which the code treats
  identically.
* All recursion is structural, with an explicit fuel argument wherever
  the Python loop consumes more than one element per step; the fuel is
  always instantiated large enough (input length) to cover the loop.
* Note: in `server/naver_cafe_real_date_only.py` the statement
  `if 'extracted_date' in locals(): break` (line 158) sits outside any
  loop, a Python syntax error; the guard is also always false at that
  point, so the statement is modelled as dead code.
-/

/-- ASCII whitespace, the characters of the Python regex class `\s`
(and of `str.strip`) that can occur in our data. -/
def pyWs (c : Char) : Bool :=
  c = ' ' || c = '\t' || c = '\n' || c = '\r' || c = '\x0b' || c = '\x0c'

/-- Python `needle in hay` on lists of characters. -/
def listContains : List Char → List Char → Bool
  | h, n =>
    n.isPrefixOf h ||
      match h with
      | [] => false
      | _ :: t => listContains t n

/-- Python `needle in hay` for strings. -/
def strContains (hay needle : String) : Bool :=
  listContains hay.toList needle.toList

/-- Python `str.lower` (ASCII; identity on Hangul, as in Python). -/
def pyLower (s : String) : String :=
  String.mk (s.toList.map Char.toLower)

/-- Fuelled worker for `str.replace`: leftmost, non-overlapping. -/
def pyReplaceAux (pat repl : List Char) : Nat → List Char → List Char
  | 0, s => s
  | _ + 1, [] => []
  | fuel + 1, c :: s =>
    if pat ≠ [] && pat.isPrefixOf (c :: s) then
      repl ++ pyReplaceAux pat repl fuel ((c :: s).drop pat.length)
    else
      c :: pyReplaceAux pat repl fuel s

/-- Python `s.replace(pat, repl)` on character lists. -/
def pyReplace (s pat repl : List Char) : List Char :=
  pyReplaceAux pat repl s.length s

/-- Python `s.split(sep)` for a single-character separator, keeping
empty parts. -/
def splitOnCharAux (sep : Char) : List Char → List Char → List (List Char)
  | [], cur => [cur.reverse]
  | c :: cs, cur =>
    if c = sep then cur.reverse :: splitOnCharAux sep cs []
    else splitOnCharAux sep cs (c :: cur)

/-- Python `s.split('/')` on strings. -/
def pySplitSlash (s : String) : List String :=
  (splitOnCharAux '/' s.toList []).map String.mk

/-- Splits a character list at the first `>`, returning the part before
it and the part after it. -/
def splitOnGt : List Char → Option (List Char × List Char)
  | [] => none
  | '>' :: rest => some ([], rest)
  | c :: rest =>
    match splitOnGt rest with
    | some (inner, after) => some (c :: inner, after)
    | none => none

/-- Fuelled worker for `re.sub(r'<[^>]+>', '', s)`: at `<`, a tag is the
span up to the first later `>` provided it is non-empty. -/
def removeTagsAux : Nat → List Char → List Char
  | 0, s => s
  | _ + 1, [] => []
  | fuel + 1, c :: cs =>
    if c = '<' then
      match splitOnGt cs with
      | some (inner, rest) =>
        if inner.isEmpty then c :: removeTagsAux fuel cs
        else removeTagsAux fuel rest
      | none => c :: removeTagsAux fuel cs
    else
      c :: removeTagsAux fuel cs

/-- Python `re.sub(r'<[^>]+>', '', s)` on character lists. -/
def removeTags (s : List Char) : List Char :=
  removeTagsAux s.length s

/-- Fuelled worker for `re.sub(r'\s+', ' ', s)`: each maximal run of
whitespace becomes a single space. -/
def collapseWsAux : Nat → List Char → List Char
  | 0, s => s
  | _ + 1, [] => []
  | fuel + 1, c :: cs =>
    if pyWs c then ' ' :: collapseWsAux fuel (cs.dropWhile pyWs)
    else c :: collapseWsAux fuel cs

/-- Python `re.sub(r'\s+', ' ', s)` on character lists. -/
def collapseWs (s : List Char) : List Char :=
  collapseWsAux s.length s

/-- Python `str.strip()` on character lists. -/
def pyTrim (s : List Char) : List Char :=
  ((s.dropWhile pyWs).reverse.dropWhile pyWs).reverse

/-- Numeric value of a list of decimal digits, as Python `int` on a
digit string. -/
def natOfDigits (l : List Char) : Nat :=
  l.foldl (fun a c => a * 10 + (c.toNat - 48)) 0

/-- Python `int(s)` for optionally signed decimal strings; `none` is the
`ValueError` outcome. -/
def pyInt? (s : String) : Option Int :=
  match s.toList.dropWhile pyWs |>.reverse.dropWhile pyWs |>.reverse with
  | '-' :: ds => if ds ≠ [] && ds.all Char.isDigit then some (-(natOfDigits ds : Int)) else none
  | '+' :: ds => if ds ≠ [] && ds.all Char.isDigit then some ((natOfDigits ds : Int)) else none
  | ds => if ds ≠ [] && ds.all Char.isDigit then some ((natOfDigits ds : Int)) else none

/-- The decimal digit character for `n < 10`. -/
def digitChar10 (n : Nat) : Char := Char.ofNat (48 + n % 10)

/-- Zero-padded two-digit rendering (`strftime` `%m`, `%d`). -/
def pad2 (n : Nat) : String := ⟨[digitChar10 (n / 10), digitChar10 n]⟩

/-- Zero-padded four-digit rendering (`strftime` `%Y`). -/
def pad4 (n : Nat) : String :=
  ⟨[digitChar10 (n / 1000), digitChar10 (n / 100), digitChar10 (n / 10), digitChar10 n]⟩

/-! ## Dates (`datetime.date`) -/

/-- A Gregorian calendar date, the model of `datetime.date`. -/
structure PyDate where
  year : Nat
  month : Nat
  day : Nat
deriving DecidableEq, Repr

/-- Gregorian leap year test. -/
def isLeapYear (y : Nat) : Bool :=
  (y % 4 = 0 && y % 100 ≠ 0) || y % 400 = 0

/-- Days in a month of a given year. -/
def daysInMonth (y m : Nat) : Nat :=
  if m = 2 then (if isLeapYear y then 29 else 28)
  else if m = 4 || m = 6 || m = 9 || m = 11 then 30
  else 31

/-- `datetime.date(y, m, d)`: `some` on a valid calendar date, `none`
for the `ValueError` outcome. -/
def mkDate? (y m d : Nat) : Option PyDate :=
  if 1 ≤ y && y ≤ 9999 && 1 ≤ m && m ≤ 12 && 1 ≤ d && d ≤ daysInMonth y m then
    some ⟨y, m, d⟩
  else none

/-- Date comparison `a <= b` (lexicographic, as for valid
`datetime.date` values). -/
def PyDate.ble (a b : PyDate) : Bool :=
  decide (a.year < b.year ∨ (a.year = b.year ∧
    (a.month < b.month ∨ (a.month = b.month ∧ a.day ≤ b.day))))

/-- Days strictly before January 1 of year `y` in the proleptic
Gregorian calendar. -/
def daysBeforeYear (y : Nat) : Nat :=
  365 * (y - 1) + (y - 1) / 4 - (y - 1) / 100 + (y - 1) / 400

/-- Days of year `y` strictly before month `m`. -/
def daysBeforeMonth (y m : Nat) : Nat :=
  (List.range (m - 1)).foldl (fun a i => a + daysInMonth y (i + 1)) 0

/-- `date.toordinal()`. -/
def PyDate.toOrd (d : PyDate) : Nat :=
  daysBeforeYear d.year + daysBeforeMonth d.year d.month + d.day

/-- Month and day-of-month from a 1-based day of year (12 steps of
fuel suffice). -/
def monthDayOfDoy (y : Nat) : Nat → Nat → Nat × Nat
  | 0, doy => (12, doy)
  | fuel + 1, doy =>
    let m := 12 - fuel
    if doy ≤ daysInMonth y m then (m, doy)
    else monthDayOfDoy y fuel (doy - daysInMonth y m)

/-- `date.fromordinal(n)`. -/
def dateOfOrd (n : Nat) : PyDate :=
  let n0 := n - 1
  let d400 := n0 / 146097
  let r1 := n0 % 146097
  let d100 := min (r1 / 36524) 3
  let r2 := r1 - d100 * 36524
  let d4 := r2 / 1461
  let r3 := r2 - d4 * 1461
  let d1 := min (r3 / 365) 3
  let r4 := r3 - d1 * 365
  let y := 400 * d400 + 100 * d100 + 4 * d4 + d1 + 1
  let (m, d) := monthDayOfDoy y 12 (r4 + 1)
  ⟨y, m, d⟩

/-- `d + timedelta(days=k)`. -/
def dateAddDays (d : PyDate) (k : Nat) : PyDate := dateOfOrd (d.toOrd + k)

/-- `d - timedelta(days=k)` (all uses stay within the calendar). -/
def dateSubDays (d : PyDate) (k : Nat) : PyDate := dateOfOrd (d.toOrd - k)

/-- `d.strftime('%Y-%m-%dT00:00:00.000Z')`. -/
def fmtDateT000Z (d : PyDate) : String :=
  pad4 d.year ++ "-" ++ pad2 d.month ++ "-" ++ pad2 d.day ++ "T00:00:00.000Z"

/-- `datetime(y,m,d).isoformat() + "Z"`. -/
def fmtDateT00Z (d : PyDate) : String :=
  pad4 d.year ++ "-" ++ pad2 d.month ++ "-" ++ pad2 d.day ++ "T00:00:00Z"

/-! ## A small regex engine

The Python sources use `re.search` and `re.findall` with a fixed family
of patterns: literal runs, the classes `\d`, `\s`, `[:\s]`, `[^>]`,
`[^/]`, `[^/?]`, `[년\-\.]`, `[월\-\.]` with counted or unbounded
repetition, capturing digit groups, and the `$` anchor.  The engine
below interprets a token list with full greedy backtracking, which
coincides with Python semantics for this pattern family. -/

/-- One token of a pattern. -/
inductive RTok where
  /-- a literal run of characters -/
  | lit (s : String)
  /-- non-capturing class repetition `[c]{lo,hi}` (`hi = none` is `*`/`+`) -/
  | cls (p : Char → Bool) (lo : Nat) (hi : Option Nat)
  /-- capturing class repetition `([c]{lo,hi})` -/
  | grp (p : Char → Bool) (lo : Nat) (hi : Option Nat)
  /-- the `$` anchor -/
  | eos

/-- Candidate repetition counts in greedy order: `top, top-1, ..., lo`. -/
def descRange (lo top : Nat) : List Nat :=
  (List.range (top + 1 - lo)).map (fun i => top - i)

/-- Matches a token list at the head of the input with greedy
backtracking, returning the captured groups and the rest of the input.
Fuel is the number of tokens. -/
def matchToks : Nat → List RTok → List Char → Option (List (List Char) × List Char)
  | _, [], s => some ([], s)
  | 0, _ :: _, _ => none
  | fuel + 1, tok :: ts, s =>
    match tok with
    | .lit pat =>
      if pat.toList.isPrefixOf s then matchToks fuel ts (s.drop pat.length) else none
    | .eos => if s.isEmpty then matchToks fuel ts s else none
    | .cls p lo hi =>
      let run := (s.takeWhile p).length
      let top := match hi with | some h => min run h | none => run
      if lo ≤ top then
        (descRange lo top).findSome? (fun k => matchToks fuel ts (s.drop k))
      else none
    | .grp p lo hi =>
      let run := (s.takeWhile p).length
      let top := match hi with | some h => min run h | none => run
      if lo ≤ top then
        (descRange lo top).findSome? (fun k =>
          (matchToks fuel ts (s.drop k)).map (fun r => (s.take k :: r.1, r.2)))
      else none

/-- `re.search`: groups of the leftmost match, if any. -/
def research (toks : List RTok) : List Char → Option (List (List Char))
  | [] =>
    match matchToks toks.length toks [] with
    | some (gs, _) => some gs
    | none => none
  | c :: cs =>
    match matchToks toks.length toks (c :: cs) with
    | some (gs, _) => some gs
    | none => research toks cs

/-- Fuelled worker for `re.findall`. -/
def refindallAux (toks : List RTok) : Nat → List Char → List (List (List Char))
  | 0, _ => []
  | fuel + 1, s =>
    match matchToks toks.length toks s with
    | some (gs, rest) =>
      gs ::
        (if rest.length < s.length then refindallAux toks fuel rest
         else match s with
           | [] => []
           | _ :: cs => refindallAux toks fuel cs)
    | none =>
      match s with
      | [] => []
      | _ :: cs => refindallAux toks fuel cs

/-- `re.findall`: group tuples of all non-overlapping matches. -/
def refindall (toks : List RTok) (s : List Char) : List (List (List Char)) :=
  refindallAux toks (s.length + 1) s

/-! ## Data model

A search-result item as returned by the Naver open API (a Python dict;
fields read with `.get(key, "")` are plain strings, fields read with
`.get(key)` or with another default are `Option`). -/

structure Item where
  title : String := ""
  description : String := ""
  link : String := ""
  bloggerlink : String := ""
  bloggername : Option String := none
  postdate : Option String := none
  cafename : Option String := none
  extracted_user_id : Option String := none
deriving DecidableEq, Repr

/-- The canonical review record assembled by the pipeline. -/
structure Review where
  userId : String
  source : String
  serviceId : String
  appId : String
  rating : Int
  content : String
  createdAt : String
  link : Option String
  platform : String
deriving DecidableEq, Repr

/-! ## `server/naver_api.py` -/

/-- Pattern `blog\.naver\.com/([^/?]+)`. -/
def patBlogUser : List RTok :=
  [.lit "blog.naver.com/", .grp (fun c => !(c = '/' || c = '?')) 1 none]

/-- Pattern `cafe\.naver\.com/([^/?]+)`. -/
def patCafeUser : List RTok :=
  [.lit "cafe.naver.com/", .grp (fun c => !(c = '/' || c = '?')) 1 none]

/-- `extract_user_id_from_url` (lines 17-57). -/
def extract_user_id_from_url (bloggerlink link search_type : String) : Option String :=
  if search_type = "blog" then
    match (if bloggerlink ≠ "" then research patBlogUser bloggerlink.toList else none) with
    | some (g :: _) => some (String.mk g)
    | _ =>
      match (if link ≠ "" then research patBlogUser link.toList else none) with
      | some (g :: _) => some (String.mk g)
      | _ => none
  else if search_type = "cafe" then
    match (if link ≠ "" then research patCafeUser link.toList else none) with
    | some (g :: _) => some ("카페_" ++ String.mk g)
    | _ => none
  else none

/-- Sets `item['extracted_user_id']` (line 110-111). -/
def snAnnotate (search_type : String) (it : Item) : Item :=
  { it with extracted_user_id := extract_user_id_from_url it.bloggerlink it.link search_type }

/-- Inner loop of `search_naver` over the items of one query response
(lines 106-116): skip already-seen links, annotate and append new ones,
stop once `display` results are collected. -/
def snInner (search_type : String) (display : Nat) :
    List Item → List String → List Item → List String × List Item
  | [], seen, acc => (seen, acc)
  | it :: its, seen, acc =>
    if seen.contains it.link then snInner search_type display its seen acc
    else
      let acc' := acc ++ [snAnnotate search_type it]
      if display ≤ acc'.length then (it.link :: seen, acc')
      else snInner search_type display its (it.link :: seen) acc'

/-- Outer loop of `search_naver` over the four query variants
(lines 90-126); a `none` response is a failed or non-200 request. -/
def snOuter (search_type : String) (display : Nat) :
    List (Option (List Item)) → List String → List Item → List Item
  | [], _, acc => acc
  | none :: qs, seen, acc => snOuter search_type display qs seen acc
  | some its :: qs, seen, acc =>
    let r := snInner search_type display its seen acc
    if display ≤ r.2.length then r.2
    else snOuter search_type display qs r.1 r.2

/-- `search_naver` (lines 59-128) with the network responses of the
query variants supplied as data: merge, dedupe by link (first seen
wins), truncate to `display`. -/
def search_naver (search_type : String) (display : Nat)
    (responses : List (Option (List Item))) : List Item :=
  (snOuter search_type display responses [] []).take display

/-- The character written `&#39;` in HTML. -/
def aposChar : Char := Char.ofNat 39

/-- `extract_text_from_html` (lines 130-156): tag removal, entity
decoding, whitespace collapse. -/
def extract_text_from_html (html_content : Option String) : String :=
  match html_content with
  | none => ""
  | some s =>
    if s = "" then ""
    else
      let l0 := removeTags s.toList
      let l1 := pyReplace l0 "&lt;".toList "<".toList
      let l2 := pyReplace l1 "&gt;".toList ">".toList
      let l3 := pyReplace l2 "&amp;".toList "&".toList
      let l4 := pyReplace l3 "&quot;".toList "\"".toList
      let l5 := pyReplace l4 "&#39;".toList [aposChar]
      let l6 := pyReplace l5 "&nbsp;".toList " ".toList
      let l7 := pyReplace l6 "&hellip;".toList "...".toList
      String.mk (pyTrim (collapseWs l7))

/-- `strip_html` (lines 158-184), an exact textual duplicate of
`extract_text_from_html` in the source. -/
def strip_html (html_content : Option String) : String :=
  match html_content with
  | none => ""
  | some s =>
    if s = "" then ""
    else
      let l0 := removeTags s.toList
      let l1 := pyReplace l0 "&lt;".toList "<".toList
      let l2 := pyReplace l1 "&gt;".toList ">".toList
      let l3 := pyReplace l2 "&amp;".toList "&".toList
      let l4 := pyReplace l3 "&quot;".toList "\"".toList
      let l5 := pyReplace l4 "&#39;".toList [aposChar]
      let l6 := pyReplace l5 "&nbsp;".toList " ".toList
      let l7 := pyReplace l6 "&hellip;".toList "...".toList
      String.mk (pyTrim (collapseWs l7))

/-- `exclusion_keywords` of `is_likely_user_review` (lines 204-218). -/
def exclusion_keywords : List String :=
  ["뉴스", "기사", "보도", "보도자료", "press", "언론", "미디어",
   "기자", "취재", "신문", "방송", "뉴스룸", "보도국", "편집부", "news",
   "관련 기사", "속보", "단독", "특보", "일보", "타임즈", "헤럴드",
   "서평", "도서", "책", "독서", "독후감", "리뷰 이벤트", "서평단",
   "배경화면", "테마", "다운로드", "라이브 배경화면", "플라밍고",
   "정보", "소식", "업데이트", "버전", "기능", "특징", "서비스 소개",
   "스펙", "사양", "가격", "요금", "플랜", "구독", "설치", "출시",
   "이벤트", "프로모션", "광고", "홍보", "마케팅", "런칭", "공식",
   "캠페인", "안내", "알림", "공지", "발표"]

/-- `review_indicators` of `is_likely_user_review` (lines 230-243). -/
def review_indicators : List String :=
  ["사용해보니", "써보니", "체험해보니", "테스트해보니", "사용기", "체험기", "사용후기",
   "후기", "리뷰", "평가", "평점", "별점", "만족", "불만족", "만족도",
   "추천", "비추천", "권장", "비권장", "좋아요", "싫어요", "괜찮아요",
   "장점", "단점", "아쉬운", "좋은점", "나쁜점", "문제점", "개선점",
   "편리", "불편", "유용", "도움", "짜증", "답답", "만족스럽", "실망",
   "통화", "전화", "녹음", "음성", "보이스피싱", "비서",
   "정말", "너무", "완전", "진짜", "솔직히", "개인적으로"]

/-- The combined lower-cased stripped text examined by
`is_likely_user_review` (lines 199-201). -/
def likelyText (item : Item) : String :=
  pyLower (strip_html (some item.title)) ++ " " ++ pyLower (strip_html (some item.description))

/-- `is_likely_user_review` (lines 186-256). -/
def is_likely_user_review (item : Item) (service_keywords : List String) : Bool :=
  if exclusion_keywords.any (fun k => strContains (likelyText item) k) then false
  else if !(service_keywords.any (fun sk => strContains (likelyText item) (pyLower sk))) then false
  else if !(review_indicators.any (fun k => strContains (likelyText item) k)) then false
  else if (likelyText item).length < 30 then false
  else true

/-! ## `server/naver_cafe_real_date_only.py` -/

/-- Python `s.replace(pat, repl)` for strings. -/
def pyReplaceStr (s pat repl : String) : String :=
  String.mk (pyReplace s.toList pat.toList repl.toList)

/-- The five `date_patterns` of step 1 (lines 33-39). -/
def date_patterns : List (List RTok) :=
  [[.grp Char.isDigit 4 (some 4), .lit "년", .cls pyWs 0 none,
    .grp Char.isDigit 1 (some 2), .lit "월", .cls pyWs 0 none,
    .grp Char.isDigit 1 (some 2), .lit "일"],
   [.grp Char.isDigit 4 (some 4), .lit "-", .grp Char.isDigit 1 (some 2),
    .lit "-", .grp Char.isDigit 1 (some 2)],
   [.grp Char.isDigit 4 (some 4), .lit ".", .grp Char.isDigit 1 (some 2),
    .lit ".", .grp Char.isDigit 1 (some 2)],
   [.grp Char.isDigit 4 (some 4), .lit "/", .grp Char.isDigit 1 (some 2),
    .lit "/", .grp Char.isDigit 1 (some 2)],
   [.grp Char.isDigit 2 (some 2), .lit "년", .cls pyWs 0 none,
    .grp Char.isDigit 1 (some 2), .lit "월", .cls pyWs 0 none,
    .grp Char.isDigit 1 (some 2), .lit "일"]]

/-- Step-1 processing of one pattern (lines 41-60): first match of the
pattern; two-digit years map to 20YY / 19YY; valid when
`2020 <= year <= 2025`, `1 <= month <= 12`, `1 <= day <= 31` and the
calendar accepts it.  No comparison against today here. -/
def step1TryPattern (text : List Char) (p : List RTok) : Option PyDate :=
  match research p text with
  | some (g1 :: g2 :: g3 :: _) =>
    let y0 := natOfDigits g1
    let y := if y0 < 100 then (if y0 < 50 then 2000 + y0 else 1900 + y0) else y0
    let mo := natOfDigits g2
    let dy := natOfDigits g3
    if 2020 ≤ y && y ≤ 2025 && 1 ≤ mo && mo ≤ 12 && 1 ≤ dy && dy ≤ 31 then
      mkDate? y mo dy
    else none
  | _ => none

/-- Step 1: date from the combined title/description text (lines 29-60). -/
def step1_textDate (text : List Char) : Option PyDate :=
  date_patterns.findSome? (step1TryPattern text)

/-- The `[:\s]*` character class. -/
def colonWs (c : Char) : Bool := c = ':' || pyWs c

/-- The fourteen `enhanced_patterns` used by the scraping steps
(lines 96-118, repeated verbatim at lines 213-235). -/
def enhanced_patterns : List (List RTok) :=
  [[.lit "\"writeDt\":\"", .grp Char.isDigit 4 (some 4), .lit "-",
    .grp Char.isDigit 1 (some 2), .lit "-", .grp Char.isDigit 1 (some 2)],
   [.lit "\"regDt\":\"", .grp Char.isDigit 4 (some 4), .lit "-",
    .grp Char.isDigit 1 (some 2), .lit "-", .grp Char.isDigit 1 (some 2)],
   [.lit "\"createDate\":\"", .grp Char.isDigit 4 (some 4), .lit "-",
    .grp Char.isDigit 1 (some 2), .lit "-", .grp Char.isDigit 1 (some 2)],
   [.lit "data-write-date=\"", .grp Char.isDigit 4 (some 4), .lit "-",
    .grp Char.isDigit 1 (some 2), .lit "-", .grp Char.isDigit 1 (some 2)],
   [.lit "작성일", .cls colonWs 0 none, .grp Char.isDigit 4 (some 4), .lit ".",
    .grp Char.isDigit 1 (some 2), .lit ".", .grp Char.isDigit 1 (some 2)],
   [.lit "등록일", .cls colonWs 0 none, .grp Char.isDigit 4 (some 4), .lit ".",
    .grp Char.isDigit 1 (some 2), .lit ".", .grp Char.isDigit 1 (some 2)],
   [.grp Char.isDigit 4 (some 4), .lit ".", .grp Char.isDigit 1 (some 2), .lit ".",
    .grp Char.isDigit 1 (some 2), .cls pyWs 0 none, .cls Char.isDigit 1 (some 2),
    .lit ":", .cls Char.isDigit 1 (some 2)],
   [.lit "<time", .cls (fun c => c ≠ '>') 0 none, .lit "datetime=\"",
    .grp Char.isDigit 4 (some 4), .lit "-", .grp Char.isDigit 1 (some 2),
    .lit "-", .grp Char.isDigit 1 (some 2)],
   [.lit "\"published\":\"", .grp Char.isDigit 4 (some 4), .lit "-",
    .grp Char.isDigit 1 (some 2), .lit "-", .grp Char.isDigit 1 (some 2)],
   [.lit "\"created\":\"", .grp Char.isDigit 4 (some 4), .lit "-",
    .grp Char.isDigit 1 (some 2), .lit "-", .grp Char.isDigit 1 (some 2)],
   [.grp Char.isDigit 4 (some 4), .lit "년", .cls pyWs 0 none,
    .grp Char.isDigit 1 (some 2), .lit "월", .cls pyWs 0 none,
    .grp Char.isDigit 1 (some 2), .lit "일"],
   [.lit "data-date=\"", .grp Char.isDigit 4 (some 4), .lit "-",
    .grp Char.isDigit 1 (some 2), .lit "-", .grp Char.isDigit 1 (some 2)],
   [.lit "datetime=\"", .grp Char.isDigit 4 (some 4), .lit "-",
    .grp Char.isDigit 1 (some 2), .lit "-", .grp Char.isDigit 1 (some 2)],
   [.grp Char.isDigit 4 (some 4), .lit "-", .grp Char.isDigit 1 (some 2), .lit "-",
    .grp Char.isDigit 1 (some 2), .lit "T", .cls Char.isDigit 2 (some 2),
    .lit ":", .cls Char.isDigit 2 (some 2), .lit ":", .cls Char.isDigit 2 (some 2)]]

/-- Scraping-step processing of one `findall` tuple (lines 124-146 and
242-256): valid range `2020..2025`, calendar-valid, and not in the
future relative to today. -/
def dateOfMatch? (today : PyDate) (m : List (List Char)) : Option PyDate :=
  match m with
  | g1 :: g2 :: g3 :: _ =>
    let y := natOfDigits g1
    let mo := natOfDigits g2
    let dy := natOfDigits g3
    if 2020 ≤ y && y ≤ 2025 && 1 ≤ mo && mo ≤ 12 && 1 ≤ dy && dy ≤ 31 then
      match mkDate? y mo dy with
      | some t => if t.ble today then some t else none
      | none => none
    else none
  | _ => none

/-- The guard of the early break at lines 149-151: some tuple has a
digit year within 2020..2025. -/
def anyYearOK (ms : List (List (List Char))) : Bool :=
  ms.any (fun m =>
    match m with
    | g1 :: _ :: _ :: _ =>
      g1 ≠ [] && g1.all Char.isDigit && decide (2020 ≤ natOfDigits g1) &&
        decide (natOfDigits g1 ≤ 2025)
    | _ => false)

/-- Pattern scan of step 2 for one fetched page (lines 120-151),
including the early abort after the four top-priority patterns. -/
def scanPats2 (today : PyDate) (html : List Char) :
    List (List RTok) → Nat → Option PyDate
  | [], _ => none
  | p :: ps, idx =>
    let ms := refindall p html
    match ms.findSome? (dateOfMatch? today) with
    | some d => some d
    | none =>
      if idx < 4 && anyYearOK ms then none
      else scanPats2 today html ps (idx + 1)

/-- The network environment of one reconciliation call: `get` is the
body of a successful (status-200) GET of a URL, `headLastModified` the
already-parsed `Last-Modified` header of a successful HEAD request
(the RFC-1123 parse by `strptime` is absorbed into the environment),
`today` the value of `date.today()`. -/
structure NetEnv where
  get : String → Option String
  headLastModified : String → Option PyDate
  today : PyDate

/-- The three URL variants tried by step 2 (lines 71-75); `none` is the
`IndexError` raised while building the iframe URL, which skips step 2
entirely (caught at line 175). -/
def step2_urls (link : String) : Option (List String) :=
  let parts := pySplitSlash link
  if parts.length < 2 then none
  else some
    [link,
     pyReplaceStr link "cafe.naver.com" "m.cafe.naver.com",
     link ++ "?iframe_url_utf8=%2FArticleRead.nhn%253Fclubid%3D" ++
       parts.getD (parts.length - 2) "" ++ "%26articleid%3D" ++
       parts.getD (parts.length - 1) ""]

/-- Step 2 (lines 62-176): only for `cafe.naver.com` links; fetch the
URL variants, scan the first 12000 characters with the enhanced
patterns; if nothing is found, fall back to the `Last-Modified` header
of a HEAD request, which is returned without any window validation. -/
def step2_scrape (link : String) (env : NetEnv) : Option PyDate :=
  if strContains link "cafe.naver.com" then
    match step2_urls link with
    | none => none
    | some urls =>
      match urls.findSome? (fun u =>
          (env.get u).bind (fun txt =>
            scanPats2 env.today (txt.toList.take 12000) enhanced_patterns 0)) with
      | some d => some d
      | none => env.headLastModified link
  else none

/-- Pattern scan of step 3 for one fetched page (lines 237-269):
collect the valid dates of each pattern in order and return the first. -/
def scanPats3 (today : PyDate) (html : List Char) :
    List (List RTok) → Option PyDate
  | [] => none
  | p :: ps =>
    match (refindall p html).filterMap (dateOfMatch? today) with
    | v :: _ => some v
    | [] => scanPats3 today html ps

/-- The three URL variants of step 3 (lines 183-187). -/
def step3_urls (link : String) : List String :=
  [link,
   pyReplaceStr link "cafe.naver.com" "m.cafe.naver.com",
   pyReplaceStr link "cafe.naver.com" "cafe.naver.com/ca-fe"]

/-- Step 3 (lines 178-276): every URL variant is attempted with two
header profiles (lines 189-202); the page is scanned over its first
10000 characters. -/
def step3_scrape (link : String) (env : NetEnv) : Option PyDate :=
  (step3_urls link).findSome? (fun u =>
    (List.range 2).findSome? (fun _ =>
      (env.get u).bind (fun txt =>
        scanPats3 env.today (txt.toList.take 10000) enhanced_patterns)))

/-- Pattern `/(\d+)$` (line 283). -/
def patPostId : List RTok := [.lit "/", .grp Char.isDigit 1 none, .eos]

/-- Pattern `cafe\.naver\.com/([^/]+)/` (line 284). -/
def patCafeName : List RTok :=
  [.lit "cafe.naver.com/", .grp (fun c => c ≠ '/') 1 none, .lit "/"]

/-- One calibrated id range of the `cafe_patterns` table. -/
structure IdRange where
  idStart : Nat
  idEnd : Nat
  dateStart : PyDate
  dateEnd : PyDate
deriving DecidableEq, Repr

/-- A `cafe_patterns` table entry: either calibrated id ranges
(`high/medium/low_activity`) or a legacy base/daily-increment record,
which the code never uses for estimation. -/
inductive CafeEntry where
  | ranged (rs : List IdRange)
  | legacy (base dailyIncrement : Nat)
deriving DecidableEq, Repr

/-- The calibration table `cafe_patterns` (lines 294-329). -/
def cafe_patterns : List (String × CafeEntry) :=
  [("appleiphone", .ranged
     [⟨8812000, 8813000, ⟨2025, 7, 1⟩, ⟨2025, 7, 5⟩⟩,
      ⟨8810000, 8812000, ⟨2025, 6, 25⟩, ⟨2025, 7, 1⟩⟩]),
   ("koreagift", .ranged [⟨18000, 18100, ⟨2025, 7, 10⟩, ⟨2025, 7, 15⟩⟩]),
   ("stockhouse7", .ranged [⟨120, 140, ⟨2025, 7, 10⟩, ⟨2025, 7, 20⟩⟩]),
   ("ainows25", .ranged [⟨3100, 3200, ⟨2025, 7, 10⟩, ⟨2025, 7, 20⟩⟩]),
   ("wjdrkrjqn", .legacy 10000000 100),
   ("rainup", .legacy 3300000 20),
   ("bonjukbibimbap", .legacy 400 1),
   ("saleagent", .legacy 540000 10),
   ("forcso", .legacy 2000 1)]

/-- Linear interpolation within one calibrated range (lines 337-347).
The float `id_progress * date_range_days` truncated by `int(...)` is
modelled as the exact rational floor; no claim depends on the rounding,
and the result is re-validated against `[2020-01-01, today]` either
way. -/
def interpRange (today : PyDate) (pid : Nat) (r : IdRange) : Option PyDate :=
  if r.idStart ≤ pid && pid ≤ r.idEnd then
    let rangeDays := r.dateEnd.toOrd - r.dateStart.toOrd
    let calcDays := (pid - r.idStart) * rangeDays / (r.idEnd - r.idStart)
    let ed := dateAddDays r.dateStart calcDays
    if (PyDate.mk 2020 1 1).ble ed && ed.ble today then some ed else none
  else none

/-- Step 4, the id-based heuristic (lines 278-362): requires both a
trailing post id and a cafe name in the link; calibrated ranges are
interpolated, anything else declines with `none`. -/
def step4_idHeuristic (link : String) (today : PyDate) : Option PyDate :=
  match research patPostId link.toList, research patCafeName link.toList with
  | some (g1 :: _), some (g2 :: _) =>
    let pid := natOfDigits g1
    match cafe_patterns.lookup (String.mk g2) with
    | some (.ranged rs) => rs.findSome? (interpRange today pid)
    | some (.legacy _ _) => none
    | none => none
  | _, _ => none

/-- `extract_real_date_only` (lines 11-371) for dict input: the four
strategies in order, `none` when all decline. -/
def extract_real_date_only (cafe : Item) (env : NetEnv) : Option PyDate :=
  match step1_textDate (cafe.title ++ " " ++ cafe.description).toList with
  | some d => some d
  | none =>
    match step2_scrape cafe.link env with
    | some d => some d
    | none =>
      match step3_scrape cafe.link env with
      | some d => some d
      | none => step4_idHeuristic cafe.link env.today

/-- The `news_indicators` list, repeated verbatim at
`naver_cafe_real_date_only.py` lines 407-411, `crawler.py` lines
306-310 and `naver_cafe_advanced_date.py` lines 234-238. -/
def news_indicators : List String :=
  ["뉴스", "기사", "보도", "보도자료", "press", "뉴스기사", "언론", "미디어",
   "기자", "취재", "신문", "방송", "뉴스룸", "보도국", "편집부", "news",
   "관련 기사", "속보", "단독", "특보", "일보", "타임즈", "헤럴드"]

/-- The SOHO co-occurrence rule (repeated at lines 421-432 of the
filter, `crawler.py` lines 199-215 / 339-356 and
`naver_cafe_advanced_date.py` lines 254-271): the content must mention
the store keyword and an LG/U+ keyword. -/
def sohoOk (full_content : String) : Bool :=
  (["우리가게", "우리 가게"].any (fun k => strContains full_content k)) &&
  (["lg", "l g", "lgu", "lg u+", "lg유플러스",
    "유플러스", "유 플러스", "유플", "uplus", "u plus", "u+", "u +"].any
      (fun k => strContains full_content k))

/-- `service_id_map` (lines 450-454, same mapping as `crawler.py`
lines 17-21). -/
def service_id_map : List (String × String) :=
  [("익시오", "ixio"), ("SOHO우리가게패키지", "soho-package"), ("AI비즈콜", "ai-bizcall")]

/-- Tag removal plus the five entity replaces used by the cafe review
builders (lines 437-444). -/
def cleanTagsEnt5 (s : String) : String :=
  let l0 := removeTags s.toList
  let l1 := pyReplace l0 "&lt;".toList "<".toList
  let l2 := pyReplace l1 "&gt;".toList ">".toList
  let l3 := pyReplace l2 "&amp;".toList "&".toList
  let l4 := pyReplace l3 "&quot;".toList "\"".toList
  String.mk (pyReplace l4 "&#39;".toList [aposChar])

/-- Body of the `filter_cafe_by_real_date_only` loop for one item
(lines 390-477): `none` when the item is excluded. -/
def filterRealOne (env : NetEnv) (start_date end_date : PyDate)
    (service_name : String) (cafe : Item) : Option Review :=
  match extract_real_date_only cafe env with
  | none => none
  | some d =>
    if start_date.ble d && d.ble end_date then
      if news_indicators.any (fun k =>
          strContains (pyLower (cafe.title ++ " " ++ cafe.description)) k) then none
      else if service_name = "SOHO우리가게패키지" &&
          !(sohoOk (pyLower (cafe.title ++ " " ++ cafe.description))) then none
      else
        some
          { userId :=
              match cafe.extracted_user_id with
              | some u => if u = "" then "카페_" ++ cafe.cafename.getD "unknown" else u
              | none => "카페_" ++ cafe.cafename.getD "unknown"
            source := "naver_cafe"
            serviceId := (service_id_map.lookup service_name).getD "ixio"
            appId := "cafe_" ++ cafe.cafename.getD "unknown"
            rating := 5
            content := String.mk (pyTrim
              (cleanTagsEnt5 cafe.title ++ " " ++ cleanTagsEnt5 cafe.description).toList)
            createdAt := fmtDateT000Z d
            link := some cafe.link
            platform := "naver_cafe" }
    else none

/-- Loop of `filter_cafe_by_real_date_only` (lines 384-477) with its
accumulator and processed counter; stops at `max_results` collected or
30 processed. -/
def filterRealAux (env : NetEnv) (sd ed : PyDate) (sn : String) (maxResults : Nat) :
    List Item → List Review → Nat → List Review
  | [], acc, _ => acc
  | c :: cs, acc, pc =>
    if maxResults ≤ acc.length || 30 ≤ pc then acc
    else
      match filterRealOne env sd ed sn c with
      | some r => filterRealAux env sd ed sn maxResults cs (acc ++ [r]) (pc + 1)
      | none => filterRealAux env sd ed sn maxResults cs acc (pc + 1)

/-- `filter_cafe_by_real_date_only` (lines 373-480). -/
def filter_cafe_by_real_date_only (env : NetEnv) (cafes : List Item)
    (sd ed : PyDate) (service_name : String) (maxResults : Nat) : List Review :=
  filterRealAux env sd ed service_name maxResults cafes [] 0

/-! ## `server/naver_cafe_real_date_simple.py` -/

/-- `d - timedelta(days=k)` for a possibly negative `k`. -/
def dateSubDaysI (d : PyDate) (k : Int) : PyDate :=
  dateOfOrd ((d.toOrd : Int) - k).toNat

/-- Pattern `/appleiphone/(\d+)` (line 22). -/
def patAppleId : List RTok := [.lit "/appleiphone/", .grp Char.isDigit 1 none]

/-- Pattern `/joonggonara/(\d+)` (line 58). -/
def patJoongId : List RTok := [.lit "/joonggonara/", .grp Char.isDigit 1 none]

/-- The apple-cafe estimate of `extract_real_cafe_date` (lines 27-54);
`//` is Python floor division, `Int.fdiv` here. -/
def appleEstimate (pid : Nat) : PyDate :=
  if 8815000 ≤ pid then dateSubDaysI ⟨2025, 7, 15⟩ (Int.fdiv (8816000 - (pid : Int)) 200)
  else if 8800000 ≤ pid then dateSubDaysI ⟨2025, 7, 10⟩ (Int.fdiv (8815000 - (pid : Int)) 500)
  else if 8700000 ≤ pid then dateSubDaysI ⟨2025, 6, 30⟩ (Int.fdiv (8800000 - (pid : Int)) 1000)
  else if 8600000 ≤ pid then dateSubDaysI ⟨2025, 5, 31⟩ (Int.fdiv (8700000 - (pid : Int)) 1500)
  else if 8500000 ≤ pid then dateSubDaysI ⟨2025, 4, 30⟩ (Int.fdiv (8600000 - (pid : Int)) 2000)
  else ⟨2025, 1, 1⟩

/-- The joonggonara estimate (lines 56-74). -/
def joongEstimate (pid : Nat) : PyDate :=
  if 900000000 ≤ pid then ⟨2025, 7, 15⟩
  else if 850000000 ≤ pid then ⟨2025, 6, 1⟩
  else if 800000000 ≤ pid then ⟨2025, 3, 1⟩
  else ⟨2024, 12, 1⟩

/-- The generic-cafe estimate keyed on today (lines 76-102). -/
def generalEstimate (pid : Nat) (today : PyDate) : PyDate :=
  if 8000000 ≤ pid then today
  else if 7000000 ≤ pid then dateSubDays today 1
  else if 5000000 ≤ pid then dateSubDays today 2
  else if 3000000 ≤ pid then dateSubDays today 3
  else if 1000000 ≤ pid then dateSubDays today 5
  else if 100000 ≤ pid then dateSubDays today 7
  else dateSubDays today 10

/-- The two `title_patterns` actually used (lines 105-108, slice `[:2]`
at line 111). -/
def title_patterns_simple : List (List RTok) :=
  [[.grp Char.isDigit 4 (some 4), .cls (fun c => c = '년' || c = '-' || c = '.') 1 (some 1),
    .grp Char.isDigit 1 (some 2), .cls (fun c => c = '월' || c = '-' || c = '.') 1 (some 1),
    .grp Char.isDigit 1 (some 2)],
   [.grp Char.isDigit 2 (some 2), .cls (fun c => c = '년' || c = '-' || c = '.') 1 (some 1),
    .grp Char.isDigit 1 (some 2), .cls (fun c => c = '월' || c = '-' || c = '.') 1 (some 1),
    .grp Char.isDigit 1 (some 2)]]

/-- Title scan of the simple module (lines 104-127); the per-match
processing (two-digit years, the 2020..2025 window, `ValueError`
continue) is literally the same as in step 1 of the date-only module. -/
def titleDateSimple (title : List Char) : Option PyDate :=
  title_patterns_simple.findSome? (step1TryPattern title)

/-- Steps 3-4 of the simple module (lines 129-138): the recent-keyword
branch and the default both yield yesterday. -/
def recentFallback (title : String) (today : PyDate) : PyDate :=
  if ["최근", "오늘", "어제", "이번"].any
      (fun k => strContains (pyLower title) k) then
    dateSubDays today 1
  else dateSubDays today 1

/-- `extract_real_cafe_date` (lines 9-142): always produces a date;
every branch except the title scan is an estimate or a default. -/
def extract_real_cafe_date (cafe : Item) (today : PyDate) : PyDate :=
  if strContains cafe.link "/appleiphone/" then
    match research patAppleId cafe.link.toList with
    | some (g :: _) => appleEstimate (natOfDigits g)
    | _ =>
      match titleDateSimple cafe.title.toList with
      | some d => d
      | none => recentFallback cafe.title today
  else if strContains cafe.link "/joonggonara/" then
    match research patJoongId cafe.link.toList with
    | some (g :: _) => joongEstimate (natOfDigits g)
    | _ =>
      match titleDateSimple cafe.title.toList with
      | some d => d
      | none => recentFallback cafe.title today
  else
    match research patPostId cafe.link.toList with
    | some (g :: _) => generalEstimate (natOfDigits g) today
    | _ =>
      match titleDateSimple cafe.title.toList with
      | some d => d
      | none => recentFallback cafe.title today

/-- `get_cafe_date_with_fallback` (lines 144-154); the model raises no
exceptions, so the wrapper is the function itself. -/
def get_cafe_date_with_fallback (cafe : Item) (today : PyDate) : PyDate :=
  extract_real_cafe_date cafe today

/-! ## `server/naver_cafe_advanced_date.py` -/

/-- Body of the `filter_cafe_by_advanced_date` loop for one item
(lines 223-299): the date always exists, so the range check decides. -/
def filterAdvOne (today sd ed : PyDate) (search_keyword : String)
    (cafe : Item) : Option Review :=
  if sd.ble (get_cafe_date_with_fallback cafe today) &&
      (get_cafe_date_with_fallback cafe today).ble ed then
    if news_indicators.any (fun k =>
        strContains (pyLower (cafe.title ++ " " ++ cafe.description)) k) then none
    else
      if search_keyword = "SOHO우리가게패키지" &&
          !(sohoOk (pyLower (cleanTagsEnt5 cafe.title ++ " " ++ cleanTagsEnt5 cafe.description))) then
        none
      else
        some
          { userId :=
              match cafe.extracted_user_id with
              | some u => if u = "" then "카페_" ++ cafe.cafename.getD "unknown" else u
              | none => "카페_" ++ cafe.cafename.getD "unknown"
            source := "naver_cafe"
            serviceId := "soho-package"
            appId := "cafe_" ++ cafe.cafename.getD "unknown"
            rating := 5
            content := String.mk
              (pyTrim (cleanTagsEnt5 cafe.title ++ " " ++ cleanTagsEnt5 cafe.description).toList)
            createdAt := fmtDateT000Z (get_cafe_date_with_fallback cafe today)
            link := some cafe.link
            platform := "naver_cafe" }
  else none

/-- Loop of `filter_cafe_by_advanced_date` (lines 214-301): stops at
`max_results` collected or 20 processed. -/
def filterAdvAux (today sd ed : PyDate) (kw : String) (maxResults : Nat) :
    List Item → List Review → Nat → List Review
  | [], acc, _ => acc
  | c :: cs, acc, pc =>
    if maxResults ≤ acc.length || 20 ≤ pc then acc
    else
      match filterAdvOne today sd ed kw c with
      | some r => filterAdvAux today sd ed kw maxResults cs (acc ++ [r]) (pc + 1)
      | none => filterAdvAux today sd ed kw maxResults cs acc (pc + 1)

/-- `filter_cafe_by_advanced_date` (lines 210-301). -/
def filter_cafe_by_advanced_date (today : PyDate) (cafes : List Item)
    (sd ed : PyDate) (search_keyword : String) (maxResults : Nat) : List Review :=
  filterAdvAux today sd ed search_keyword maxResults cafes [] 0

/-! ## `server/store_api.py` (the second `crawl_apple_store`,
lines 176-255, which shadows the first definition) -/

/-- One parsed RSS `entry`; XML parsing is absorbed into the
environment.  `updatedParsed` is the `datetime.fromisoformat` reading
of `updated` when that string parses, `none` otherwise. -/
structure AppleEntry where
  authorName : Option String := none
  title : Option String := none
  contentText : Option String := none
  ratingText : Option String := none
  updated : Option String := none
  updatedParsed : Option PyDate := none
deriving DecidableEq, Repr

/-- A processed App Store review dict (lines 238-244). -/
structure AppleProc where
  userName : String
  score : Int
  content : String
  «at» : String
  title : String
deriving DecidableEq, Repr

/-- The date-range gate of the App Store processing (lines 222-236):
keep the review when no filter is set or the parsed date lies in the
range; a parse failure under an active filter drops the item. -/
def appleDateGate (dateFilter : Option (PyDate × PyDate)) (createdParsed : Option PyDate)
    (pr : AppleProc) : Option AppleProc :=
  match dateFilter with
  | some (sd, ed) =>
    match createdParsed with
    | some rd => if sd.ble rd && rd.ble ed then some pr else none
    | none => none
  | none => some pr

/-- Processing of one RSS entry (lines 204-249): `none` is the per-item
`except ... continue`.  The rating `int(rating_elem.text)` is taken as
is, defaulting to 3 when the element is absent; no clamping happens.
The date filter compares at day granularity in the model. -/
def appleProcessOne (dateFilter : Option (PyDate × PyDate)) (nowIso : String)
    (nowDate : PyDate) (e : AppleEntry) : Option AppleProc :=
  match (match e.ratingText with | some t => pyInt? t | none => some 3) with
  | none => none
  | some rating =>
    appleDateGate dateFilter
      (if e.updated.isSome then e.updatedParsed else some nowDate)
      ⟨e.authorName.getD "익명", rating,
       (match e.contentText with | some c => c | none => e.title.getD ""),
       e.updated.getD nowIso, e.title.getD ""⟩

/-- `crawl_apple_store` (lines 176-255): skip the metadata entry, take
`count`, process each with per-item error absorption. -/
def crawl_apple_store (count : Nat) (dateFilter : Option (PyDate × PyDate))
    (nowIso : String) (nowDate : PyDate) (entries : List AppleEntry) : List AppleProc :=
  ((entries.drop 1).take count).filterMap (appleProcessOne dateFilter nowIso nowDate)

/-! ## `server/service_data.py` -/

/-- One entry of the `services` configuration table. -/
structure ServiceInfo where
  google_play_id : String
  apple_store_id : String
  keywords : List String
deriving DecidableEq, Repr

/-- The `services` table (lines 9-31); note that its keys are the
service ids, not the Korean display names. -/
def services : List (String × ServiceInfo) :=
  [("ixio",
    ⟨"com.lguplus.aicallagent", "6503931858",
     ["익시오", "ixio", "ixi-o", "익시o", "ixi오",
      "LG익시오", "LG 익시오", "U+익시오", "유플러스익시오", "유플러스 익시오",
      "LG U+ 익시오", "LGU+ 익시오",
      "익시오 앱", "익시오 통화", "익시오 AI", "익시오 리뷰", "익시오 사용후기",
      "ixi-O", "IXIO"]⟩),
   ("ai-bizcall",
    ⟨"com.uplus.ubizai", "6503284354",
     ["ai비즈콜", "에이아이비즈콜", "LG비즈콜", "유플러스비즈콜", "U+비즈콜"]⟩),
   ("soho-package",
    ⟨"com.lguplus.sohoapp", "1571096278",
     ["우리가게", "LG 우리가게", "U+ 우리가게", "유플러스 우리가게", "LG U+ 우리가게",
      "우리가게패키지", "SOHO우리가게패키지", "유플러스소호패키지"]⟩)]

/-! ## `server/crawler.py`

The adapter outputs (google-play scraper results, parsed App Store RSS
entries, Naver API responses per keyword and query variant), the parsed
date-range filter, and the two `created_at` timezone-fixing
transformations of lines 67-76 / 110-123 (which rest on
`datetime.fromisoformat` of externally supplied timestamps) are
supplied by a `CrawlEnv` environment.

Note on runtime behaviour, preserved here as documentation of the
sources: the crawler invokes `search_naver(kw, search_type=...,
display=..., start_date=..., end_date=...)` although `search_naver`
accepts no `start_date`/`end_date` parameters, and it imports
`naver_cafe_real_date_only`, whose module body has a syntax error
(`break` outside a loop, line 159).  Both failures are swallowed by the
per-keyword `except` blocks, so at runtime the blog and cafe branches
always contribute zero reviews.  The branch bodies below model what the
code inside those `try` blocks prescribes; the runtime outcome is the
empty sublist of that behaviour. -/

/-- The google-play review conversion (lines 78-89); `created_at` is the
result of the fixing at lines 67-76. -/
def googleReviewOf (service_id : String) (i : Nat) (created_at : String)
    (userName : Option String) (score : Option Int) (content : String) : Review :=
  { userId := userName.getD "익명"
    source := "google_play"
    serviceId := service_id
    appId := toString i
    rating := score.getD 3
    content := content
    createdAt := created_at
    link := none
    platform := "google_play" }

/-- A processed google-play review dict, the adapter output consumed at
lines 65-89. -/
structure GoogleProc where
  userName : Option String := none
  score : Option Int := none
  content : String := ""
  «at» : String := ""
deriving DecidableEq, Repr

/-- The App Store review conversion (lines 108-137); `created_at` is
the result of the fixing at lines 110-123. -/
def crawlAppleReviewOf (service_id : String) (i : Nat) (created_at : String)
    (r : AppleProc) : Review :=
  { userId := r.userName
    source := "app_store"
    serviceId := service_id
    appId := toString i
    rating := r.score
    content := r.content
    createdAt := created_at
    link := none
    platform := "app_store" }

/-- The local `clean_html` of the blog branch (lines 186-193): tag
removal, five entities, strip — no whitespace collapse. -/
def clean_html_crawler (s : String) : String :=
  String.mk (pyTrim (cleanTagsEnt5 s).toList)

/-- `datetime.strptime(s, "%Y%m%d")`, date part. -/
def parseYYYYMMDD (s : String) : Option PyDate :=
  match s.toList with
  | [a, b, c, d, e, f, g, h] =>
    if [a, b, c, d, e, f, g, h].all Char.isDigit then
      mkDate? (natOfDigits [a, b, c, d]) (natOfDigits [e, f]) (natOfDigits [g, h])
    else none
  | _ => none

/-- The blog review dict (lines 224-234). -/
def blogReviewOf (service_id user_id iso_date clean_title clean_description : String)
    (postdate : Option String) (link : String) : Review :=
  { userId := user_id
    source := "naver_blog"
    serviceId := service_id
    appId := "blog_" ++ postdate.getD "unknown"
    rating := 5
    content := clean_title ++ " " ++ clean_description
    createdAt := iso_date
    link := some link
    platform := "naver_blog" }

/-- Blog branch processing of one search item (lines 157-236): date
parse with the `except` fallbacks of lines 173-179, optional date-range
drop, HTML cleaning, the SOHO co-occurrence rule, user-id resolution. -/
def blogItemToReview (service_id service_name : String)
    (dateFilter : Option (PyDate × PyDate)) (blog : Item) : Option Review :=
  match (match parseYYYYMMDD (blog.postdate.getD "20250101") with
         | some pd =>
           match dateFilter with
           | some (sd, ed) => if sd.ble pd && pd.ble ed then some (fmtDateT00Z pd) else none
           | none => some (fmtDateT00Z pd)
         | none =>
           match dateFilter with
           | some _ => none
           | none => some "2025-01-01T00:00:00Z") with
  | none => none
  | some iso_date =>
    if service_name = "SOHO우리가게패키지" &&
        !(sohoOk (pyLower (clean_html_crawler blog.title ++ " " ++
          clean_html_crawler blog.description))) then
      none
    else
      some (blogReviewOf service_id
        (match extract_user_id_from_url blog.bloggerlink blog.link "blog" with
         | some u => if u = "" then blog.bloggername.getD "Unknown" else u
         | none => blog.bloggername.getD "Unknown")
        iso_date (clean_html_crawler blog.title) (clean_html_crawler blog.description)
        blog.postdate blog.link)

/-- Cafe branch processing of one search item when no date filter is
active (lines 299-370): news exclusion, strict real-date extraction
(`none` drops the item — there is no fallback marker), cleaning, the
SOHO rule. -/
def cafeNoFilterOne (env : NetEnv) (service_name service_id : String)
    (cafe : Item) : Option Review :=
  if news_indicators.any (fun k =>
      strContains (pyLower (cafe.title ++ " " ++ cafe.description)) k) then none
  else
    match extract_real_date_only cafe env with
    | none => none
    | some d =>
      if service_name = "SOHO우리가게패키지" &&
          !(sohoOk (pyLower (cleanTagsEnt5 cafe.title ++ " " ++ cleanTagsEnt5 cafe.description))) then
        none
      else
        some
          { userId :=
              (match cafe.extracted_user_id with
               | some u => if u = "" then cafe.cafename.getD "Unknown" else u
               | none => cafe.cafename.getD "Unknown")
            source := "naver_cafe"
            serviceId := service_id
            appId := "cafe_" ++ cafe.cafename.getD "unknown"
            rating := 5
            content := String.mk
              (pyTrim (cleanTagsEnt5 cafe.title ++ " " ++ cleanTagsEnt5 cafe.description).toList)
            createdAt := fmtDateT000Z d
            link := some cafe.link
            platform := "naver_cafe" }

/-- The crawl environment: adapter outputs and the abstracted
timestamp fixes. -/
structure CrawlEnv where
  net : NetEnv
  googleProcessed : List GoogleProc
  googleFixedAt : String → String
  appleEntries : List AppleEntry
  appleFixedAt : String → String
  nowIso : String
  naverResp : String → String → List (Option (List Item))
  dateFilter : Option (PyDate × PyDate)

/-- Blog branch over the first three service keywords (lines 142-251);
results of different keyword searches are concatenated without
deduplication. -/
def blogBranch (env : CrawlEnv) (service_id service_name : String)
    (review_count : Nat) (service_keywords : List String) : List Review :=
  (service_keywords.take 3).flatMap (fun kw =>
    (search_naver "blog" (review_count / 3) (env.naverResp kw "blog")).filterMap
      (blogItemToReview service_id service_name env.dateFilter))

/-- Cafe branch over the first three service keywords (lines 253-388):
with a date filter it defers to `filter_cafe_by_real_date_only` capped
at `min(10, review_count // 3)`, otherwise to the no-filter loop;
keyword results are concatenated without deduplication. -/
def cafeBranch (env : CrawlEnv) (service_id service_name : String)
    (review_count : Nat) (service_keywords : List String) : List Review :=
  (service_keywords.take 3).flatMap (fun kw =>
    let naver_cafes := search_naver "cafe" (review_count / 3) (env.naverResp kw "cafe")
    match env.dateFilter with
    | some (sd, ed) =>
      filter_cafe_by_real_date_only env.net naver_cafes sd ed service_name
        (min 10 (review_count / 3))
    | none =>
      naver_cafes.filterMap (cafeNoFilterOne env.net service_name service_id))

/-- The channel selection dict. -/
structure Channels where
  googlePlay : Bool := false
  appleStore : Bool := false
  naverBlog : Bool := false
  naverCafe : Bool := false
deriving DecidableEq, Repr

/-- `crawl_service_by_selection` (lines 15-390): the service-name check
(line 41) raises before any adapter is consulted; each selected channel
contributes one key of the result dict; an empty selection yields an
empty dict, not an error. -/
def crawl_service_by_selection (service_name : String) (ch : Channels)
    (review_count : Nat) (env : CrawlEnv) :
    Except String (List (String × List Review)) :=
  let service_id :=
    (service_id_map.lookup service_name).getD
      (pyReplaceStr (pyLower service_name) " " "-")
  if (services.lookup service_name).isNone then
    Except.error "유효하지 않은 서비스명입니다."
  else
    let info := (services.lookup service_name).getD ⟨"", "", []⟩
    let service_keywords := info.keywords
    let googlePart :=
      if ch.googlePlay then
        [("google_play",
          env.googleProcessed.enum.map (fun p =>
            googleReviewOf service_id p.1 (env.googleFixedAt p.2.«at»)
              p.2.userName p.2.score p.2.content))]
      else []
    let applePart :=
      if ch.appleStore then
        [("apple_store",
          (crawl_apple_store 100 env.dateFilter env.nowIso env.net.today
            env.appleEntries).enum.map (fun p =>
              crawlAppleReviewOf service_id p.1 (env.appleFixedAt p.2.«at») p.2))]
      else []
    let blogPart :=
      if ch.naverBlog then
        [("naver_blog", blogBranch env service_id service_name review_count service_keywords)]
      else []
    let cafePart :=
      if ch.naverCafe then
        [("naver_cafe", cafeBranch env service_id service_name review_count service_keywords)]
      else []
    Except.ok (googlePart ++ applePart ++ blogPart ++ cafePart)

/-! ## Shared lemmas -/

/-- Inversion for `List.findSome?`: a produced value comes from some
element of the list. -/
theorem findSome?_eq_some_inv {α β : Type _} (f : α → Option β) :
    ∀ (l : List α) (b : β), l.findSome? f = some b → ∃ a, a ∈ l ∧ f a = some b := by
  intro l
  induction l with
  | nil => intro b h; simp [List.findSome?] at h
  | cons a as ih =>
    intro b h
    cases hfa : f a with
    | some v =>
      rw [List.findSome?_cons, hfa] at h
      simp at h
      exact ⟨a, List.mem_cons_self a as, by rw [hfa, h]⟩
    | none =>
      rw [List.findSome?_cons, hfa] at h
      obtain ⟨x, hx, hfx⟩ := ih b h
      exact ⟨x, List.mem_cons_of_mem a hx, hfx⟩

/-! ## Claim theorems -/

/-- C9: the two HTML-cleaning functions are extensionally equal; the
source bodies are verbatim duplicates, so either may replace the
other. -/
theorem extract_text_eq_strip_html (x : Option String) :
    extract_text_from_html x = strip_html x := rfl

/-- C6: `is_likely_user_review` returns false whenever the
news/promotional exclusion vocabulary hits the combined stripped
lower-cased text, regardless of the service keywords. -/
theorem exclusion_forces_reject (item : Item) (service_keywords : List String)
    (h : exclusion_keywords.any (fun k => strContains (likelyText item) k) = true) :
    is_likely_user_review item service_keywords = false := by
  unfold is_likely_user_review
  simp [h]

/-- C6 witness: an otherwise review-like item mentioning `특보` is
rejected. -/
theorem exclusion_forces_reject_witness :
    (exclusion_keywords.any (fun k => strContains
      (likelyText { title := "익시오 특보", description := "정말 편리하고 만족해요 추천 통화 녹음" }) k) = true) ∧
    is_likely_user_review
      { title := "익시오 특보", description := "정말 편리하고 만족해요 추천 통화 녹음" }
      ["익시오"] = false :=
  ⟨by decide, exclusion_forces_reject _ _ (by decide)⟩

/-- C10: `is_likely_user_review` accepts only texts of at least 30
characters: any item whose combined stripped lower-cased text is
shorter returns false. -/
theorem short_text_rejected (item : Item) (service_keywords : List String)
    (h : (likelyText item).length < 30) :
    is_likely_user_review item service_keywords = false := by
  unfold is_likely_user_review
  by_cases h1 : (exclusion_keywords.any fun k => strContains (likelyText item) k) = true
  · simp [h1]
  · by_cases h2 : (!service_keywords.any fun sk => strContains (likelyText item) (pyLower sk)) = true
    · simp [h1, h2]
    · by_cases h3 : (!review_indicators.any fun k => strContains (likelyText item) k) = true
      · simp [h1, h2, h3]
      · simp [h1, h2, h3, h]

/-- C10 witness: a five-character item is rejected. -/
theorem short_text_rejected_witness :
    ((likelyText { title := "짧은 글", description := "" }).length < 30) ∧
    is_likely_user_review { title := "짧은 글", description := "" } ["짧"] = false :=
  ⟨by decide, short_text_rejected _ _ (by decide)⟩

/-- C2 counterexample: HTML stripping is not idempotent — decoding
`&lt;b&gt;` produces the tag `<b>`, which a second pass removes. -/
theorem strip_html_not_idempotent :
    strip_html (some (strip_html (some "&lt;b&gt;hi"))) ≠ strip_html (some "&lt;b&gt;hi") := by
  decide

/-! ## Lemmas for the idempotence analysis of `strip_html` -/

/-- Tag removal is the identity on `<`-free text. -/
theorem removeTagsAux_id :
    ∀ (fuel : Nat) (l : List Char), '<' ∉ l → removeTagsAux fuel l = l := by
  intro fuel
  induction fuel with
  | zero => intro l _; rfl
  | succ n ih =>
    intro l h
    cases l with
    | nil => rfl
    | cons c cs =>
      have hc : ¬(c = '<') := by
        intro e; exact h (by simp [e])
      simp only [removeTagsAux]
      rw [if_neg hc, ih cs (fun m => h (List.mem_cons_of_mem c m))]

/-- Replacement is the identity when the head of the (non-empty)
pattern does not occur in the text. -/
theorem pyReplaceAux_id (p : Char) (ps repl : List Char) :
    ∀ (fuel : Nat) (l : List Char), p ∉ l →
      pyReplaceAux (p :: ps) repl fuel l = l := by
  intro fuel
  induction fuel with
  | zero => intro l _; rfl
  | succ n ih =>
    intro l h
    cases l with
    | nil => rfl
    | cons c cs =>
      have hne : (p == c) = false := by
        apply beq_eq_false_iff_ne.mpr
        intro e; exact h (by simp [e])
      simp only [pyReplaceAux]
      rw [show ((p :: ps).isPrefixOf (c :: cs)) = (p == c && ps.isPrefixOf cs) from rfl]
      rw [hne]
      simp only [Bool.false_and, Bool.and_false, if_false, Bool.false_eq_true,
        if_neg (fun he => (Bool.false_ne_true he))]
      rw [ih cs (fun m => h (List.mem_cons_of_mem c m))]

/-- As above, for `pyReplace`. -/
theorem pyReplace_id (l pat repl : List Char) (p : Char)
    (hp : pat.head? = some p) (h : p ∉ l) : pyReplace l pat repl = l := by
  cases pat with
  | nil => simp at hp
  | cons q qs =>
    have : q = p := by simpa using hp
    subst this
    exact pyReplaceAux_id q qs repl l.length l h

/-- Elements at the head of a `dropWhile` result falsify the predicate. -/
theorem dwHeadFalse (p : Char → Bool) :
    ∀ (l : List Char) (c : Char), (l.dropWhile p).head? = some c → p c = false := by
  intro l
  induction l with
  | nil => intro c h; simp at h
  | cons a as ih =>
    intro c h
    by_cases hp : p a
    · rw [List.dropWhile_cons, if_pos hp] at h
      exact ih c h
    · rw [List.dropWhile_cons, if_neg hp] at h
      have : a = c := by simpa using h
      subst this
      simpa using hp

/-- `dropWhile` is the identity when the head falsifies the predicate. -/
theorem dwOfHeadFalse (p : Char → Bool) (l : List Char)
    (h : ∀ c, l.head? = some c → p c = false) : l.dropWhile p = l := by
  cases l with
  | nil => rfl
  | cons a as =>
    have := h a rfl
    rw [List.dropWhile_cons, if_neg (by simp [this])]

/-- `dropWhile` is idempotent. -/
theorem dwTwice (p : Char → Bool) (l : List Char) :
    (l.dropWhile p).dropWhile p = l.dropWhile p :=
  dwOfHeadFalse p _ (dwHeadFalse p l)

/-- `dropWhile` keeps the last element when its result is non-empty. -/
theorem dwGetLast (p : Char → Bool) :
    ∀ (l : List Char), l.dropWhile p ≠ [] →
      (l.dropWhile p).getLast? = l.getLast? := by
  intro l
  induction l with
  | nil => simp
  | cons a as ih =>
    intro hne
    by_cases hp : p a
    · rw [List.dropWhile_cons, if_pos hp] at hne ⊢
      have has : as ≠ [] := by
        intro e; rw [e] at hne; simp at hne
      rw [ih hne]
      cases as with
      | nil => exact absurd rfl has
      | cons b bs => rw [List.getLast?_cons_cons]
    · rw [List.dropWhile_cons, if_neg hp]

/-- `str.strip()` is idempotent. -/
theorem pyTrim_idem (l : List Char) : pyTrim (pyTrim l) = pyTrim l := by
  unfold pyTrim
  cases hv : (l.dropWhile pyWs).reverse.dropWhile pyWs with
  | nil => simp
  | cons x xs =>
    rw [← hv]
    have h1 : ((l.dropWhile pyWs).reverse.dropWhile pyWs).reverse.dropWhile pyWs =
        ((l.dropWhile pyWs).reverse.dropWhile pyWs).reverse := by
      apply dwOfHeadFalse
      intro c hc
      rw [List.head?_reverse] at hc
      rw [dwGetLast pyWs _ (by rw [hv]; simp)] at hc
      rw [List.getLast?_reverse] at hc
      exact dwHeadFalse pyWs l c hc
    rw [h1, List.reverse_reverse, dwTwice]

/-- Invariant of collapsed text: every whitespace character is a plain
space and no two spaces are adjacent. -/
def isCollapsed (l : List Char) : Prop :=
  (∀ c ∈ l, pyWs c = true → c = ' ') ∧
    l.Chain' (fun a b => ¬(a = ' ' ∧ b = ' '))

/-- `collapseWsAux` on the empty list. -/
theorem collapseWsAux_nil (fuel : Nat) : collapseWsAux fuel [] = [] := by
  cases fuel <;> rfl

/-- The head survives collapsing when it is not whitespace. -/
theorem collapseWsAux_head (fuel : Nat) (l : List Char)
    (h : ∀ d, l.head? = some d → pyWs d = false) :
    (collapseWsAux fuel l).head? = l.head? := by
  cases fuel with
  | zero => rfl
  | succ n =>
    cases l with
    | nil => rfl
    | cons a as =>
      have := h a rfl
      simp only [collapseWsAux]
      rw [if_neg (by simp [this])]
      rfl

/-- Whitespace collapsing establishes the invariant. -/
theorem collapse_sound :
    ∀ (fuel : Nat) (l : List Char), l.length ≤ fuel →
      isCollapsed (collapseWsAux fuel l) := by
  intro fuel
  induction fuel with
  | zero =>
    intro l hl
    have : l = [] := List.length_eq_zero.mp (Nat.le_zero.mp hl)
    subst this
    rw [show collapseWsAux 0 ([] : List Char) = [] from rfl]
    exact ⟨by simp, List.chain'_nil⟩
  | succ n ih =>
    intro l hl
    cases l with
    | nil =>
      rw [show collapseWsAux (n + 1) ([] : List Char) = [] from rfl]
      exact ⟨by simp, List.chain'_nil⟩
    | cons c cs =>
      have hcs : cs.length ≤ n := by simp at hl; omega
      by_cases hc : pyWs c = true
      · simp only [collapseWsAux, if_pos hc]
        have hrest : (cs.dropWhile pyWs).length ≤ n :=
          le_trans (List.Sublist.length_le (List.dropWhile_sublist _)) hcs
        obtain ⟨hmem, hch⟩ := ih _ hrest
        constructor
        · intro d hd hw
          rcases List.mem_cons.mp hd with he | hm
          · exact he
          · exact hmem d hm hw
        · cases hX : collapseWsAux n (cs.dropWhile pyWs) with
          | nil => simp
          | cons x xs =>
            apply List.chain'_cons.mpr
            refine ⟨?_, by rw [← hX]; exact hch⟩
            intro hand
            have hx' : (collapseWsAux n (cs.dropWhile pyWs)).head? = some x := by
              rw [hX]; rfl
            rw [collapseWsAux_head n _ (fun d hd => dwHeadFalse pyWs cs d hd)] at hx'
            have hws := dwHeadFalse pyWs cs x hx'
            rw [hand.2] at hws
            simp [pyWs] at hws
      · simp only [collapseWsAux, if_neg hc]
        obtain ⟨hmem, hch⟩ := ih cs hcs
        constructor
        · intro d hd hw
          rcases List.mem_cons.mp hd with he | hm
          · subst he; exact absurd hw (by simpa using hc)
          · exact hmem d hm hw
        · cases hX : collapseWsAux n cs with
          | nil => simp
          | cons x xs =>
            apply List.chain'_cons.mpr
            refine ⟨?_, by rw [← hX]; exact hch⟩
            intro hand
            rw [hand.1] at hc
            simp [pyWs] at hc

/-- Collapsing is the identity on already-collapsed text. -/
theorem collapse_fixed :
    ∀ (fuel : Nat) (l : List Char), isCollapsed l → collapseWsAux fuel l = l := by
  intro fuel
  induction fuel with
  | zero => intro l _; rfl
  | succ n ih =>
    intro l hl
    cases l with
    | nil => rfl
    | cons c cs =>
      obtain ⟨hmem, hch⟩ := hl
      by_cases hc : pyWs c = true
      · have hce : c = ' ' := hmem c (List.mem_cons_self c cs) hc
        cases cs with
        | nil =>
          simp only [collapseWsAux, if_pos hc]
          rw [List.dropWhile_nil, collapseWsAux_nil, hce]
        | cons c2 rest =>
          have h2 : ¬(c = ' ' ∧ c2 = ' ') := (List.chain'_cons.mp hch).1
          have hc2ne : c2 ≠ ' ' := fun e => h2 ⟨hce, e⟩
          have hc2w : pyWs c2 = false := by
            by_cases hw : pyWs c2 = true
            · exact absurd (hmem c2 (by simp) hw) hc2ne
            · simpa using hw
          simp only [collapseWsAux, if_pos hc]
          rw [List.dropWhile_cons, if_neg (by simp [hc2w])]
          rw [ih (c2 :: rest)
            ⟨fun d hd hw => hmem d (List.mem_cons_of_mem c hd) hw,
             (List.chain'_cons.mp hch).2⟩]
          rw [hce]
      · simp only [collapseWsAux, if_neg hc]
        rw [ih cs ⟨fun d hd hw => hmem d (List.mem_cons_of_mem c hd) hw, hch.tail⟩]

/-- The no-adjacent-space chain survives reversal. -/
theorem chainR_reverse {l : List Char}
    (h : l.Chain' (fun a b => ¬(a = ' ' ∧ b = ' '))) :
    l.reverse.Chain' (fun a b => ¬(a = ' ' ∧ b = ' ')) := by
  rw [List.chain'_reverse]
  exact h.imp (fun _ _ hab hba => hab ⟨hba.2, hba.1⟩)

/-- Stripping preserves the collapsed-text invariant. -/
theorem trim_pres (l : List Char) (h : isCollapsed l) : isCollapsed (pyTrim l) := by
  obtain ⟨hmem, hch⟩ := h
  constructor
  · intro c hc hw
    have h1 : c ∈ List.dropWhile pyWs (List.dropWhile pyWs l).reverse := by
      simpa [pyTrim] using hc
    have h2 := List.dropWhile_subset (p := pyWs) h1
    rw [List.mem_reverse] at h2
    exact hmem c (List.dropWhile_subset (p := pyWs) h2) hw
  · have s1 := hch.suffix (List.dropWhile_suffix (l := l) pyWs)
    have s2 := chainR_reverse s1
    have s3 := s2.suffix (List.dropWhile_suffix pyWs)
    exact chainR_reverse s3

/-- The collapse-then-strip pipeline is idempotent. -/
theorem stripCore_idem (w : List Char) :
    pyTrim (collapseWs (pyTrim (collapseWs w))) = pyTrim (collapseWs w) := by
  have h1 : isCollapsed (collapseWs w) := collapse_sound w.length w le_rfl
  have h2 : isCollapsed (pyTrim (collapseWs w)) := trim_pres _ h1
  rw [show collapseWs (pyTrim (collapseWs w)) = pyTrim (collapseWs w) from
    collapse_fixed _ _ h2]
  exact pyTrim_idem _

/-- `String.mk` and `toList` are inverse. -/
theorem toList_mk (l : List Char) : (String.mk l).toList = l := rfl

/-- Every `strip_html` output is empty or a collapsed-and-stripped list. -/
theorem strip_html_shape (x : Option String) :
    strip_html x = "" ∨
      ∃ w : List Char, (strip_html x).toList = pyTrim (collapseWs w) := by
  cases x with
  | none => left; rfl
  | some s =>
    by_cases hs : s = ""
    · left; simp [strip_html, hs]
    · right
      refine ⟨pyReplace (pyReplace (pyReplace (pyReplace (pyReplace (pyReplace
        (pyReplace (removeTags s.toList) "&lt;".toList "<".toList)
        "&gt;".toList ">".toList) "&amp;".toList "&".toList)
        "&quot;".toList "\"".toList) "&#39;".toList [aposChar])
        "&nbsp;".toList " ".toList) "&hellip;".toList "...".toList, ?_⟩
      simp only [strip_html, if_neg hs]
      exact toList_mk _

/-- `toList` and `String.mk` are inverse, other direction. -/
theorem mk_toList (s : String) : String.mk s.toList = s := rfl

/-- Unfolding of `strip_html` on a clean non-empty input: tag removal
and entity decoding are identities, leaving collapse-and-strip. -/
theorem strip_html_some_clean (y : String) (hy : y ≠ "")
    (h1 : '<' ∉ y.toList) (h2 : '&' ∉ y.toList) :
    strip_html (some y) = String.mk (pyTrim (collapseWs y.toList)) := by
  have e0 : removeTags y.toList = y.toList := removeTagsAux_id _ _ h1
  have r1 : pyReplace y.toList "&lt;".toList "<".toList = y.toList :=
    pyReplace_id _ _ _ '&' rfl h2
  have r2 : pyReplace y.toList "&gt;".toList ">".toList = y.toList :=
    pyReplace_id _ _ _ '&' rfl h2
  have r3 : pyReplace y.toList "&amp;".toList "&".toList = y.toList :=
    pyReplace_id _ _ _ '&' rfl h2
  have r4 : pyReplace y.toList "&quot;".toList "\"".toList = y.toList :=
    pyReplace_id _ _ _ '&' rfl h2
  have r5 : pyReplace y.toList "&#39;".toList [aposChar] = y.toList :=
    pyReplace_id _ _ _ '&' rfl h2
  have r6 : pyReplace y.toList "&nbsp;".toList " ".toList = y.toList :=
    pyReplace_id _ _ _ '&' rfl h2
  have r7 : pyReplace y.toList "&hellip;".toList "...".toList = y.toList :=
    pyReplace_id _ _ _ '&' rfl h2
  simp only [strip_html, if_neg hy]
  rw [e0, r1, r2, r3, r4, r5, r6, r7]

/-- C2 amended: `strip_html` is idempotent on every input whose first
pass leaves neither a `<` nor a `&` in the output; entity decoding can
otherwise manufacture fresh tags or entities for the second pass. -/
theorem strip_html_idempotent_on_clean (x : Option String)
    (h1 : '<' ∉ (strip_html x).toList) (h2 : '&' ∉ (strip_html x).toList) :
    strip_html (some (strip_html x)) = strip_html x := by
  rcases strip_html_shape x with he | ⟨w, hw⟩
  · rw [he]; decide
  · by_cases hye : strip_html x = ""
    · rw [hye]; decide
    · rw [strip_html_some_clean _ hye h1 h2, hw, stripCore_idem, ← hw, mk_toList]

/-- C2 amended witness: already-clean text is a fixed point. -/
theorem strip_html_idem_witness :
    ('<' ∉ (strip_html (some "hello  <b>world</b>")).toList) ∧
    ('&' ∉ (strip_html (some "hello  <b>world</b>")).toList) ∧
    strip_html (some (strip_html (some "hello  <b>world</b>"))) =
      strip_html (some "hello  <b>world</b>") :=
  ⟨by decide, by decide,
    strip_html_idempotent_on_clean (some "hello  <b>world</b>") (by decide) (by decide)⟩


/-! ## Lemmas for the date-validity window (C1) -/

/-- Inversion of `datetime.date` construction. -/
theorem mkDate?_eq_some {y m d : Nat} {t : PyDate} (h : mkDate? y m d = some t) :
    t.year = y ∧ t.month = m ∧ t.day = d ∧ 1 ≤ m ∧ 1 ≤ d := by
  unfold mkDate? at h
  split at h
  · rename_i hcond
    simp only [Bool.and_eq_true, decide_eq_true_eq] at hcond
    injection h with h'
    subst h'
    exact ⟨rfl, rfl, rfl, hcond.1.1.1.2, hcond.1.2⟩
  · cases h

theorem guardDate_bound (y mo dy : Nat) (d : PyDate)
    (h : (if (decide (2020 ≤ y) && decide (y ≤ 2025) && decide (1 ≤ mo) && decide (mo ≤ 12) &&
              decide (1 ≤ dy) && decide (dy ≤ 31)) = true
          then mkDate? y mo dy else none) = some d) :
    (PyDate.mk 2020 1 1).ble d = true ∧ d.ble ⟨2025, 12, 31⟩ = true := by
  by_cases hc : (decide (2020 ≤ y) && decide (y ≤ 2025) && decide (1 ≤ mo) && decide (mo ≤ 12) &&
      decide (1 ≤ dy) && decide (dy ≤ 31)) = true
  · rw [if_pos hc] at h
    simp only [Bool.and_eq_true, decide_eq_true_eq] at hc
    obtain ⟨hy, hm, hd, _, _⟩ := mkDate?_eq_some h
    simp only [PyDate.ble, decide_eq_true_eq]
    constructor <;> omega
  · rw [if_neg hc] at h
    cases h

theorem step1TryPattern_bound (text : List Char) (p : List RTok) (d : PyDate)
    (h : step1TryPattern text p = some d) :
    (PyDate.mk 2020 1 1).ble d = true ∧ d.ble ⟨2025, 12, 31⟩ = true := by
  unfold step1TryPattern at h
  split at h
  · exact guardDate_bound _ _ _ d h
  · cases h

theorem guardDateToday_bound (today : PyDate) (y mo dy : Nat) (d : PyDate)
    (h : (if (decide (2020 ≤ y) && decide (y ≤ 2025) && decide (1 ≤ mo) && decide (mo ≤ 12) &&
              decide (1 ≤ dy) && decide (dy ≤ 31)) = true
          then match mkDate? y mo dy with
               | some t => if t.ble today then some t else none
               | none => none
          else none) = some d) :
    (PyDate.mk 2020 1 1).ble d = true ∧ d.ble ⟨2025, 12, 31⟩ = true ∧
      d.ble today = true := by
  by_cases hc : (decide (2020 ≤ y) && decide (y ≤ 2025) && decide (1 ≤ mo) && decide (mo ≤ 12) &&
      decide (1 ≤ dy) && decide (dy ≤ 31)) = true
  · rw [if_pos hc] at h
    simp only [Bool.and_eq_true, decide_eq_true_eq] at hc
    rcases hmk : mkDate? y mo dy with _ | t
    · rw [hmk] at h
      cases h
    · rw [hmk] at h
      replace h : (if t.ble today = true then some t else none) = some d := h
      obtain ⟨hy, hm, hd, _, _⟩ := mkDate?_eq_some hmk
      by_cases hb : t.ble today = true
      · rw [if_pos hb] at h
        injection h with h'
        subst h'
        refine ⟨?_, ?_, hb⟩ <;>
          · simp only [PyDate.ble, decide_eq_true_eq]
            omega
      · rw [if_neg hb] at h
        cases h
  · rw [if_neg hc] at h
    cases h

theorem dateOfMatch?_bound (today : PyDate) (m : List (List Char)) (d : PyDate)
    (h : dateOfMatch? today m = some d) :
    (PyDate.mk 2020 1 1).ble d = true ∧ d.ble ⟨2025, 12, 31⟩ = true ∧
      d.ble today = true := by
  unfold dateOfMatch? at h
  split at h
  · exact guardDateToday_bound today _ _ _ d h
  · cases h

theorem scanPats2_bound (today : PyDate) (html : List Char) :
    ∀ (ps : List (List RTok)) (idx : Nat) (d : PyDate),
      scanPats2 today html ps idx = some d →
      (PyDate.mk 2020 1 1).ble d = true ∧ d.ble ⟨2025, 12, 31⟩ = true ∧
        d.ble today = true := by
  intro ps
  induction ps with
  | nil => intro idx d h; cases h
  | cons p rest ih =>
    intro idx d h
    simp only [scanPats2] at h
    rcases hfs : (refindall p html).findSome? (dateOfMatch? today) with _ | v
    · rw [hfs] at h
      replace h : (if (decide (idx < 4) && anyYearOK (refindall p html)) = true then none
          else scanPats2 today html rest (idx + 1)) = some d := h
      by_cases hc : (decide (idx < 4) && anyYearOK (refindall p html)) = true
      · rw [if_pos hc] at h; cases h
      · rw [if_neg hc] at h; exact ih _ _ h
    · rw [hfs] at h
      replace h : some v = some d := h
      injection h with h'
      subst h'
      obtain ⟨m, _, hm⟩ := findSome?_eq_some_inv _ _ _ hfs
      exact dateOfMatch?_bound today m v hm

theorem scanPats3_bound (today : PyDate) (html : List Char) :
    ∀ (ps : List (List RTok)) (d : PyDate),
      scanPats3 today html ps = some d →
      (PyDate.mk 2020 1 1).ble d = true ∧ d.ble ⟨2025, 12, 31⟩ = true ∧
        d.ble today = true := by
  intro ps
  induction ps with
  | nil => intro d h; cases h
  | cons p rest ih =>
    intro d h
    simp only [scanPats3] at h
    rcases hfm : (refindall p html).filterMap (dateOfMatch? today) with _ | ⟨v, vs⟩
    · rw [hfm] at h
      exact ih d h
    · rw [hfm] at h
      replace h : some v = some d := h
      injection h with h'
      subst h'
      have hv : v ∈ (refindall p html).filterMap (dateOfMatch? today) := by
        rw [hfm]; exact List.mem_cons_self v vs
      obtain ⟨m, _, hm⟩ := List.mem_filterMap.mp hv
      exact dateOfMatch?_bound today m v hm

theorem step2_bound (link : String) (env : NetEnv)
    (hHead : ∀ u, env.headLastModified u = none) (d : PyDate)
    (h : step2_scrape link env = some d) :
    (PyDate.mk 2020 1 1).ble d = true ∧ d.ble ⟨2025, 12, 31⟩ = true ∧
      d.ble env.today = true := by
  unfold step2_scrape at h
  split at h
  · rcases hu : step2_urls link with _ | urls
    · rw [hu] at h
      cases h
    · rw [hu] at h
      replace h : (match urls.findSome? (fun u =>
          (env.get u).bind (fun txt =>
            scanPats2 env.today (txt.toList.take 12000) enhanced_patterns 0)) with
        | some dd => some dd
        | none => env.headLastModified link) = some d := h
      rcases hfs : urls.findSome? (fun u =>
          (env.get u).bind (fun txt =>
            scanPats2 env.today (txt.toList.take 12000) enhanced_patterns 0)) with _ | v
      · rw [hfs] at h
        replace h : env.headLastModified link = some d := h
        rw [hHead link] at h
        cases h
      · rw [hfs] at h
        replace h : some v = some d := h
        injection h with h'
        subst h'
        obtain ⟨u, _, hu2⟩ := findSome?_eq_some_inv _ _ _ hfs
        rcases hg : env.get u with _ | txt
        · rw [hg] at hu2; cases hu2
        · rw [hg] at hu2
          exact scanPats2_bound env.today _ _ 0 v hu2
  · cases h

theorem step3_bound (link : String) (env : NetEnv) (d : PyDate)
    (h : step3_scrape link env = some d) :
    (PyDate.mk 2020 1 1).ble d = true ∧ d.ble ⟨2025, 12, 31⟩ = true ∧
      d.ble env.today = true := by
  unfold step3_scrape at h
  obtain ⟨u, _, hu⟩ := findSome?_eq_some_inv _ _ _ h
  obtain ⟨_, _, hr⟩ := findSome?_eq_some_inv _ _ _ hu
  rcases hg : env.get u with _ | txt
  · rw [hg] at hr; cases hr
  · rw [hg] at hr
    exact scanPats3_bound env.today _ _ d hr

theorem guardWindow_bound (today ed : PyDate) (d : PyDate)
    (h : (if ((PyDate.mk 2020 1 1).ble ed && ed.ble today) = true then some ed else none) =
      some d) :
    (PyDate.mk 2020 1 1).ble d = true ∧ d.ble today = true := by
  by_cases hc : ((PyDate.mk 2020 1 1).ble ed && ed.ble today) = true
  · rw [if_pos hc] at h
    injection h with h'
    subst h'
    simpa [Bool.and_eq_true] using hc
  · rw [if_neg hc] at h
    cases h

theorem interpRange_bound (today : PyDate) (pid : Nat) (r : IdRange) (d : PyDate)
    (h : interpRange today pid r = some d) :
    (PyDate.mk 2020 1 1).ble d = true ∧ d.ble today = true := by
  unfold interpRange at h
  split at h
  · exact guardWindow_bound today _ d h
  · cases h

theorem step4_bound (link : String) (today : PyDate) (d : PyDate)
    (h : step4_idHeuristic link today = some d) :
    (PyDate.mk 2020 1 1).ble d = true ∧ d.ble today = true := by
  unfold step4_idHeuristic at h
  split at h
  · rename_i g1 gs1 g2 gs2 heq1 heq2
    replace h : (match cafe_patterns.lookup (String.mk g2) with
      | some (CafeEntry.ranged rs) => rs.findSome? (interpRange today (natOfDigits g1))
      | some (CafeEntry.legacy b inc) => none
      | none => none) = some d := h
    rcases hl : cafe_patterns.lookup (String.mk g2) with _ | e
    · rw [hl] at h; cases h
    · rw [hl] at h
      cases e with
      | ranged rs =>
        replace h : rs.findSome? (interpRange today (natOfDigits g1)) = some d := h
        obtain ⟨r, _, hr⟩ := findSome?_eq_some_inv _ _ _ h
        exact interpRange_bound today _ r d hr
      | legacy b inc =>
        replace h : (none : Option PyDate) = some d := h
        cases h
  · cases h

/-- C1 amended: with the unvalidated `Last-Modified` fallback out of
play, every date resolved by `extract_real_date_only` lies in
`[2020-01-01, max(today, 2025-12-31)]`: page-markup and calibration
dates are validated against today, while a date taken from the
title/description text is only capped at 2025-12-31 and may exceed
today. -/
theorem extract_real_date_only_window (cafe : Item) (env : NetEnv)
    (hHead : ∀ u, env.headLastModified u = none) (d : PyDate)
    (h : extract_real_date_only cafe env = some d) :
    (PyDate.mk 2020 1 1).ble d = true ∧
      (d.ble ⟨2025, 12, 31⟩ = true ∨ d.ble env.today = true) := by
  unfold extract_real_date_only at h
  rcases h1 : step1_textDate (cafe.title ++ " " ++ cafe.description).toList with _ | d1
  · rw [h1] at h
    replace h : (match step2_scrape cafe.link env with
      | some dd => some dd
      | none =>
        match step3_scrape cafe.link env with
        | some dd => some dd
        | none => step4_idHeuristic cafe.link env.today) = some d := h
    rcases h2 : step2_scrape cafe.link env with _ | d2
    · rw [h2] at h
      replace h : (match step3_scrape cafe.link env with
        | some dd => some dd
        | none => step4_idHeuristic cafe.link env.today) = some d := h
      rcases h3 : step3_scrape cafe.link env with _ | d3
      · rw [h3] at h
        replace h : step4_idHeuristic cafe.link env.today = some d := h
        obtain ⟨hlo, hhi⟩ := step4_bound cafe.link env.today d h
        exact ⟨hlo, Or.inr hhi⟩
      · rw [h3] at h
        replace h : some d3 = some d := h
        injection h with h'
        subst h'
        obtain ⟨hlo, _, hto⟩ := step3_bound cafe.link env d3 h3
        exact ⟨hlo, Or.inr hto⟩
    · rw [h2] at h
      replace h : some d2 = some d := h
      injection h with h'
      subst h'
      obtain ⟨hlo, _, hto⟩ := step2_bound cafe.link env hHead d2 h2
      exact ⟨hlo, Or.inr hto⟩
  · rw [h1] at h
    replace h : some d1 = some d := h
    injection h with h'
    subst h'
    obtain ⟨p, _, hp⟩ := findSome?_eq_some_inv _ _ _ h1
    obtain ⟨hlo, hhi⟩ := step1TryPattern_bound _ p d1 hp
    exact ⟨hlo, Or.inl hhi⟩

/-- C1 counterexample: a future date written in the title is resolved
as is — step 1 never compares against today, so on 2025-07-01 the
reconciler resolves 2025-12-31, outside `[2020-01-01, today]`. -/
theorem extract_real_date_only_future :
    extract_real_date_only
      { title := "2025년 12월 31일 후기", description := "연말 모임 예약 후기입니다", link := "" }
      { get := fun _ => none, headLastModified := fun _ => none, today := ⟨2025, 7, 1⟩ } =
      some ⟨2025, 12, 31⟩ ∧
    PyDate.ble ⟨2025, 12, 31⟩ ⟨2025, 7, 1⟩ = false := by
  constructor
  · decide
  · decide

/-- C1 amended witness at a concrete resolved date. -/
theorem extract_real_date_only_window_witness :
    (∀ u : String,
      (NetEnv.mk (fun _ => none) (fun _ => none) ⟨2025, 7, 22⟩).headLastModified u = none) ∧
    ((PyDate.mk 2020 1 1).ble ⟨2025, 7, 3⟩ = true ∧
      (PyDate.ble ⟨2025, 7, 3⟩ ⟨2025, 12, 31⟩ = true ∨
        PyDate.ble ⟨2025, 7, 3⟩
          (NetEnv.mk (fun _ => none) (fun _ => none) ⟨2025, 7, 22⟩).today = true)) :=
  ⟨fun _ => rfl,
    extract_real_date_only_window
      { title := "2025년 7월 3일 아이폰 사용 후기", description := "", link := "" }
      (NetEnv.mk (fun _ => none) (fun _ => none) ⟨2025, 7, 22⟩)
      (fun _ => rfl) ⟨2025, 7, 3⟩ (by decide)⟩

/-! ## Lemmas for strict-mode exclusion (C4) -/

/-- `findSome?` over a list of misses. -/
theorem findSome?_none {α β : Type _} (f : α → Option β) :
    ∀ (l : List α), (∀ a ∈ l, f a = none) → l.findSome? f = none := by
  intro l
  induction l with
  | nil => intro _; rfl
  | cons a as ih =>
    intro h
    rw [List.findSome?_cons, h a (List.mem_cons_self a as)]
    exact ih (fun x hx => h x (List.mem_cons_of_mem a hx))

/-- The ID-heuristic declines: the community has no calibration entry,
has only a legacy entry, or the post id misses every calibrated range. -/
def calibrationDeclines (e : Option CafeEntry) (pid : Nat) : Prop :=
  match e with
  | none => True
  | some (.legacy _ _) => True
  | some (.ranged rs) => ∀ r ∈ rs, pid < r.idStart ∨ r.idEnd < pid

/-- Out-of-range post ids are never interpolated. -/
theorem interpRange_none (today : PyDate) (pid : Nat) (r : IdRange)
    (h : pid < r.idStart ∨ r.idEnd < pid) : interpRange today pid r = none := by
  unfold interpRange
  rw [if_neg]
  simp only [Bool.and_eq_true, decide_eq_true_eq]
  omega

/-- Without a usable calibration entry the id heuristic declines. -/
theorem step4_declines (link : String) (today : PyDate)
    (hDecl : ∀ (g1 g2 : List Char) (gs1 gs2 : List (List Char)),
      research patPostId link.toList = some (g1 :: gs1) →
      research patCafeName link.toList = some (g2 :: gs2) →
      calibrationDeclines (cafe_patterns.lookup (String.mk g2)) (natOfDigits g1)) :
    step4_idHeuristic link today = none := by
  unfold step4_idHeuristic
  split
  · rename_i g1 gs1 g2 gs2 heq1 heq2
    have hd := hDecl g1 g2 gs1 gs2 heq1 heq2
    rcases hl : cafe_patterns.lookup (String.mk g2) with _ | e
    · rfl
    · cases e with
      | ranged rs =>
        rw [hl] at hd
        exact findSome?_none _ rs (fun r hr => interpRange_none today _ r (hd r hr))
      | legacy b inc => rfl
  · rfl

/-- When the text has no date, every fetch fails and the calibration
declines, the whole reconciliation chain returns the unresolved
signal. -/
theorem extract_none_of_all_decline (cafe : Item) (env : NetEnv)
    (h1 : step1_textDate (cafe.title ++ " " ++ cafe.description).toList = none)
    (hGet : ∀ u, env.get u = none)
    (hHead : ∀ u, env.headLastModified u = none)
    (hDecl : ∀ (g1 g2 : List Char) (gs1 gs2 : List (List Char)),
      research patPostId cafe.link.toList = some (g1 :: gs1) →
      research patCafeName cafe.link.toList = some (g2 :: gs2) →
      calibrationDeclines (cafe_patterns.lookup (String.mk g2)) (natOfDigits g1)) :
    extract_real_date_only cafe env = none := by
  have h2 : step2_scrape cafe.link env = none := by
    unfold step2_scrape
    split
    · rcases hu : step2_urls cafe.link with _ | urls
      · rfl
      · show (match urls.findSome? (fun u =>
            (env.get u).bind (fun txt =>
              scanPats2 env.today (txt.toList.take 12000) enhanced_patterns 0)) with
          | some dd => some dd
          | none => env.headLastModified cafe.link) = none
        rw [show urls.findSome? (fun u =>
            (env.get u).bind (fun txt =>
              scanPats2 env.today (txt.toList.take 12000) enhanced_patterns 0)) = none from
          findSome?_none _ urls (fun u _ => by rw [hGet u]; rfl)]
        exact hHead cafe.link
    · rfl
  have h3 : step3_scrape cafe.link env = none := by
    unfold step3_scrape
    exact findSome?_none _ _ (fun u _ =>
      findSome?_none _ _ (fun i _ => by rw [hGet u]; rfl))
  have h4 : step4_idHeuristic cafe.link env.today = none := step4_declines _ _ hDecl
  unfold extract_real_date_only
  rw [h1, h2, h3, h4]

/-- C4 amended: for an item whose only remaining source is the
uncalibrated id heuristic, the reconciler returns `None`, the strict
date-filtered pipeline produces zero Reviews — and, contrary to the
strict-mode-off half of the claim, the crawler's no-date-filter path
drops the item as well: no fallback-date marker or inclusion path
exists. -/
theorem strict_mode_zero_reviews (cafe : Item) (env : NetEnv)
    (sd ed : PyDate) (service_name service_id : String) (maxResults : Nat)
    (h1 : step1_textDate (cafe.title ++ " " ++ cafe.description).toList = none)
    (hGet : ∀ u, env.get u = none)
    (hHead : ∀ u, env.headLastModified u = none)
    (hDecl : ∀ (g1 g2 : List Char) (gs1 gs2 : List (List Char)),
      research patPostId cafe.link.toList = some (g1 :: gs1) →
      research patCafeName cafe.link.toList = some (g2 :: gs2) →
      calibrationDeclines (cafe_patterns.lookup (String.mk g2)) (natOfDigits g1)) :
    extract_real_date_only cafe env = none ∧
    filter_cafe_by_real_date_only env [cafe] sd ed service_name maxResults = [] ∧
    cafeNoFilterOne env service_name service_id cafe = none := by
  have hex := extract_none_of_all_decline cafe env h1 hGet hHead hDecl
  have hone : filterRealOne env sd ed service_name cafe = none := by
    unfold filterRealOne
    rw [hex]
  refine ⟨hex, ?_, ?_⟩
  · unfold filter_cafe_by_real_date_only filterRealAux
    split
    · rfl
    · rw [hone]
      rfl
  · simp only [cafeNoFilterOne, hex]
    split <;> rfl

/-- C4 counterexample: the code realization of "strict mode off" (the
crawler's no-date-filter cafe collection, lines 299-370) yields zero
reviews for an uncalibrated item, not exactly one with a fallback
marker; no such marker field exists in the Review shape. -/
theorem no_filter_drops_uncalibrated :
    ([({ title := "아이폰 카페 질문", description := "궁금한 점 문의합니다",
         link := "https://cafe.naver.com/unknowncafe/999999",
         cafename := some "unknowncafe" } : Item)].filterMap
      (cafeNoFilterOne
        { get := fun _ => none, headLastModified := fun _ => none, today := ⟨2025, 7, 22⟩ }
        "익시오" "ixio")) = [] := by
  decide

/-- C4 witness at a concrete uncalibrated item. -/
theorem strict_mode_zero_reviews_witness :
    (step1_textDate
      (("아이폰 카페 질문" : String) ++ " " ++ "궁금한 점 문의합니다").toList = none) ∧
    (extract_real_date_only
      { title := "아이폰 카페 질문", description := "궁금한 점 문의합니다",
        link := "https://cafe.naver.com/unknowncafe/999999", cafename := some "unknowncafe" }
      { get := fun _ => none, headLastModified := fun _ => none, today := ⟨2025, 7, 22⟩ } = none ∧
    filter_cafe_by_real_date_only
      { get := fun _ => none, headLastModified := fun _ => none, today := ⟨2025, 7, 22⟩ }
      [{ title := "아이폰 카페 질문", description := "궁금한 점 문의합니다",
         link := "https://cafe.naver.com/unknowncafe/999999", cafename := some "unknowncafe" }]
      ⟨2025, 7, 1⟩ ⟨2025, 7, 22⟩ "익시오" 10 = [] ∧
    cafeNoFilterOne
      { get := fun _ => none, headLastModified := fun _ => none, today := ⟨2025, 7, 22⟩ }
      "익시오" "ixio"
      { title := "아이폰 카페 질문", description := "궁금한 점 문의합니다",
        link := "https://cafe.naver.com/unknowncafe/999999", cafename := some "unknowncafe" } = none) :=
  ⟨by decide,
    strict_mode_zero_reviews
      { title := "아이폰 카페 질문", description := "궁금한 점 문의합니다",
        link := "https://cafe.naver.com/unknowncafe/999999", cafename := some "unknowncafe" }
      { get := fun _ => none, headLastModified := fun _ => none, today := ⟨2025, 7, 22⟩ }
      ⟨2025, 7, 1⟩ ⟨2025, 7, 22⟩ "익시오" "ixio" 10
      (by decide) (fun _ => rfl) (fun _ => rfl)
      (by
        intro g1 g2 gs1 gs2 e1 e2
        rw [show research patCafeName
            ("https://cafe.naver.com/unknowncafe/999999" : String).toList =
            some [("unknowncafe" : String).toList] from by decide] at e2
        injection e2 with e3
        injection e3 with e4 e5
        subst e4
        exact trivial)⟩

/-! ## Lemmas for deduplication by link (C5) -/

/-- A find hit in a prefix persists under appending. -/
theorem find?_append_some {α : Type _} (p : α → Bool) :
    ∀ (l1 l2 : List α) (y : α), l1.find? p = some y → (l1 ++ l2).find? p = some y := by
  intro l1
  induction l1 with
  | nil => intro l2 y h; cases h
  | cons a as ih =>
    intro l2 y h
    by_cases hp : p a = true
    · rw [List.find?_cons_of_pos _ hp] at h
      rw [List.cons_append, List.find?_cons_of_pos _ hp]
      exact h
    · rw [List.find?_cons_of_neg _ (by simpa using hp)] at h
      rw [List.cons_append, List.find?_cons_of_neg _ (by simpa using hp)]
      exact ih l2 y h

/-- find? skips a prefix of misses. -/
theorem find?_append_none {α : Type _} (p : α → Bool) :
    ∀ (l1 l2 : List α), (∀ i ∈ l1, p i = false) → (l1 ++ l2).find? p = l2.find? p := by
  intro l1
  induction l1 with
  | nil => intro l2 _; rfl
  | cons a as ih =>
    intro l2 h
    rw [List.cons_append, List.find?_cons_of_neg _ (by simp [h a (List.mem_cons_self a as)])]
    exact ih l2 (fun i hi => h i (List.mem_cons_of_mem a hi))

/-- Annotation preserves the link. -/
theorem snAnnotate_link (st : String) (y : Item) : (snAnnotate st y).link = y.link := rfl

/-- Membership form of `List.contains` on strings. -/
theorem contains_mem {l : List String} {a : String} : l.contains a = true ↔ a ∈ l := by
  rw [show l.contains a = l.elem a from rfl]
  exact List.elem_iff

/-- Invariant of the inner `search_naver` loop: the accumulator keeps
pairwise-distinct links, the seen set tracks exactly the accumulated
links, every accumulated item is the annotated first occurrence of its
link among the processed items, and processing either reached the
display target or consumed all items into the seen set. -/
theorem snInner_inv (st : String) (display : Nat) :
    ∀ (its : List Item) (seen : List String) (acc done : List Item),
      ((acc.map (fun x => x.link)).Nodup) →
      (∀ l, l ∈ seen ↔ l ∈ acc.map (fun x => x.link)) →
      (∀ x ∈ acc, ∃ y, done.find? (fun i => i.link == x.link) = some y ∧ x = snAnnotate st y) →
      (∀ i ∈ done, i.link ∈ seen) →
      (((snInner st display its seen acc).2.map (fun x => x.link)).Nodup ∧
       (∀ l, l ∈ (snInner st display its seen acc).1 ↔
          l ∈ (snInner st display its seen acc).2.map (fun x => x.link)) ∧
       (∀ x ∈ (snInner st display its seen acc).2, ∃ y,
          (done ++ its).find? (fun i => i.link == x.link) = some y ∧ x = snAnnotate st y) ∧
       (display ≤ (snInner st display its seen acc).2.length ∨
          (∀ i ∈ done ++ its, i.link ∈ (snInner st display its seen acc).1))) := by
  intro its
  induction its with
  | nil =>
    intro seen acc done hnd hseen hfind hdone
    simp only [snInner, List.append_nil]
    exact ⟨hnd, hseen, hfind, Or.inr hdone⟩
  | cons it its ih =>
    intro seen acc done hnd hseen hfind hdone
    have hsplit : done ++ it :: its = (done ++ [it]) ++ its := by
      rw [List.append_assoc, List.singleton_append]
    by_cases hc : seen.contains it.link = true
    · have hitseen : it.link ∈ seen := contains_mem.mp hc
      have hres := ih seen acc (done ++ [it]) hnd hseen
        (fun x hx => by
          obtain ⟨y, hy, he⟩ := hfind x hx
          exact ⟨y, find?_append_some _ done [it] y hy, he⟩)
        (fun i hi => by
          rcases List.mem_append.mp hi with h1 | h2
          · exact hdone i h1
          · rw [List.mem_singleton.mp h2]; exact hitseen)
      rw [← hsplit] at hres
      simp only [snInner, if_pos hc]
      exact hres
    · have hnotseen : it.link ∉ seen := fun hmem => hc (contains_mem.mpr hmem)
      have hnotacc : it.link ∉ acc.map (fun x => x.link) := fun hm => hnotseen ((hseen _).mpr hm)
      have hnd' : ((acc ++ [snAnnotate st it]).map (fun x => x.link)).Nodup := by
        rw [List.map_append, List.nodup_append]
        refine ⟨hnd, by simp, ?_⟩
        intro a ha hb
        simp only [List.map_cons, List.map_nil, List.mem_cons, List.not_mem_nil, or_false,
          snAnnotate_link] at hb
        subst hb
        exact hnotacc ha
      have hseen' : ∀ l, l ∈ it.link :: seen ↔
          l ∈ (acc ++ [snAnnotate st it]).map (fun x => x.link) := by
        intro l
        simp only [List.mem_cons, List.map_append, List.mem_append, snAnnotate_link,
          List.map_cons, List.map_nil, List.mem_singleton]
        constructor
        · rintro (he | hs)
          · right; simpa using he
          · left; exact (hseen l).mp hs
        · rintro (hm | he)
          · right; exact (hseen l).mpr hm
          · left; simpa using he
      have hdoneF : ∀ i ∈ done, ((fun i => i.link == (snAnnotate st it).link) i) = false := by
        intro i hi
        have hne : i.link ≠ it.link := by
          intro e; exact hnotseen (e ▸ hdone i hi)
        simp [snAnnotate_link]
        exact hne
      have hfind' : ∀ x ∈ acc ++ [snAnnotate st it], ∃ y,
          (done ++ [it]).find? (fun i => i.link == x.link) = some y ∧ x = snAnnotate st y := by
        intro x hx
        rcases List.mem_append.mp hx with h1 | h2
        · obtain ⟨y, hy, he⟩ := hfind x h1
          exact ⟨y, find?_append_some _ done [it] y hy, he⟩
        · rw [List.mem_singleton.mp h2]
          refine ⟨it, ?_, rfl⟩
          rw [find?_append_none _ done [it] hdoneF]
          rw [List.find?_cons_of_pos _ (by simp [snAnnotate_link])]
      by_cases hBreak : display ≤ (acc ++ [snAnnotate st it]).length
      · simp only [snInner, if_neg hc, if_pos hBreak]
        refine ⟨hnd', hseen', ?_, Or.inl hBreak⟩
        intro x hx
        obtain ⟨y, hy, he⟩ := hfind' x hx
        rw [hsplit]
        exact ⟨y, find?_append_some _ _ its y hy, he⟩
      · simp only [snInner, if_neg hc, if_neg hBreak]
        have hres := ih (it.link :: seen) (acc ++ [snAnnotate st it]) (done ++ [it])
          hnd' hseen' hfind'
          (fun i hi => by
            rcases List.mem_append.mp hi with h1 | h2
            · exact List.mem_cons_of_mem _ (hdone i h1)
            · rw [List.mem_singleton.mp h2]; exact List.mem_cons_self _ _)
        rw [← hsplit] at hres
        exact hres

/-- The same invariant across the query variants. -/
theorem snOuter_inv (st : String) (display : Nat) :
    ∀ (qs : List (Option (List Item))) (seen : List String) (acc done : List Item),
      ((acc.map (fun x => x.link)).Nodup) →
      (∀ l, l ∈ seen ↔ l ∈ acc.map (fun x => x.link)) →
      (∀ x ∈ acc, ∃ y, done.find? (fun i => i.link == x.link) = some y ∧ x = snAnnotate st y) →
      (∀ i ∈ done, i.link ∈ seen) →
      (((snOuter st display qs seen acc).map (fun x => x.link)).Nodup ∧
       (∀ x ∈ snOuter st display qs seen acc, ∃ y,
          (done ++ (qs.filterMap id).flatten).find? (fun i => i.link == x.link) = some y ∧
            x = snAnnotate st y)) := by
  intro qs
  induction qs with
  | nil =>
    intro seen acc done hnd hseen hfind _
    simp only [snOuter, List.filterMap_nil, List.flatten_nil, List.append_nil]
    exact ⟨hnd, hfind⟩
  | cons q qs ih =>
    intro seen acc done hnd hseen hfind hdone
    cases q with
    | none =>
      simp only [snOuter, List.filterMap_cons]
      exact ih seen acc done hnd hseen hfind hdone
    | some its =>
      obtain ⟨hA, hB, hC, hD⟩ := snInner_inv st display its seen acc done hnd hseen hfind hdone
      have hflat : done ++ ((some its :: qs).filterMap id).flatten =
          (done ++ its) ++ (qs.filterMap id).flatten := by
        simp [List.filterMap_cons, List.flatten_cons, List.append_assoc]
      by_cases hBreak : display ≤ (snInner st display its seen acc).2.length
      · simp only [snOuter, if_pos hBreak]
        refine ⟨hA, ?_⟩
        intro x hx
        obtain ⟨y, hy, he⟩ := hC x hx
        rw [hflat]
        exact ⟨y, find?_append_some _ _ _ y hy, he⟩
      · simp only [snOuter, if_neg hBreak]
        rcases hD with hD | hD
        · exact absurd hD hBreak
        · have hres := ih (snInner st display its seen acc).1
            (snInner st display its seen acc).2 (done ++ its) hA hB hC hD
          rw [hflat]
          exact hres

/-- C5 amended: within one `search_naver` call the merged result holds
at most one item per link value — its mapped links are pairwise
distinct — and every surviving item is the annotation of the first raw
item with that link across the query variants, in order. -/
theorem search_naver_dedup_first_wins (st : String) (display : Nat)
    (responses : List (Option (List Item))) :
    ((search_naver st display responses).map (fun x => x.link)).Nodup ∧
    (∀ x ∈ search_naver st display responses, ∃ y,
      ((responses.filterMap id).flatten).find? (fun i => i.link == x.link) = some y ∧
        x = snAnnotate st y) := by
  obtain ⟨hA, hC⟩ := snOuter_inv st display responses [] [] []
    (by simp) (by simp) (by simp) (by simp)
  rw [List.nil_append] at hC
  constructor
  · unfold search_naver
    rw [List.map_take]
    exact hA.sublist (List.take_sublist display _)
  · intro x hx
    exact hC x (List.mem_of_mem_take hx)

/-- C5 counterexample: two raw items with the same non-empty link do
not guarantee exactly one surviving item for that link — with
`display = 1` the merge stops after the first query and the duplicated
link is dropped entirely (zero items, not one). -/
theorem search_naver_truncation_drops_link :
    (({ link := "http://b", title := "같은 글" } : Item).link =
      ({ link := "http://b", title := "다른 검색" } : Item).link ∧
     ({ link := "http://b", title := "같은 글" } : Item).link ≠ "") ∧
    (search_naver "cafe" 1
      [some [{ link := "http://a", title := "첫 글" }],
       some [{ link := "http://b", title := "같은 글" },
             { link := "http://b", title := "다른 검색" }]]).countP
      (fun x => x.link == "http://b") = 0 := by
  constructor
  · constructor
    · rfl
    · decide
  · decide

/-- C5 witness: on a concrete duplicated response set, the surviving
item for the link is the annotated first occurrence. -/
theorem search_naver_first_wins_witness :
    (snAnnotate "cafe" { link := "http://cafe.naver.com/c/1", title := "원본" } ∈
      search_naver "cafe" 10
        [some [{ link := "http://cafe.naver.com/c/1", title := "원본" }],
         some [{ link := "http://cafe.naver.com/c/1", title := "중복" }]]) ∧
    (∃ y, (([some [({ link := "http://cafe.naver.com/c/1", title := "원본" } : Item)],
             some [{ link := "http://cafe.naver.com/c/1", title := "중복" }]].filterMap
              id).flatten).find?
        (fun i => i.link == (snAnnotate "cafe"
          ({ link := "http://cafe.naver.com/c/1", title := "원본" } : Item)).link) = some y ∧
      snAnnotate "cafe" ({ link := "http://cafe.naver.com/c/1", title := "원본" } : Item) =
        snAnnotate "cafe" y) :=
  ⟨by decide,
    (search_naver_dedup_first_wins "cafe" 10
      [some [{ link := "http://cafe.naver.com/c/1", title := "원본" }],
       some [{ link := "http://cafe.naver.com/c/1", title := "중복" }]]).2 _ (by decide)⟩

/-- A success of the date gate returns the review unchanged. -/
theorem appleDateGate_some {df : Option (PyDate × PyDate)} {cp : Option PyDate}
    {pr p : AppleProc} (h : appleDateGate df cp pr = some p) : p = pr := by
  unfold appleDateGate at h
  split at h
  · split at h
    · split at h
      · injection h with h; exact h.symm
      · cases h
    · cases h
  · injection h with h; exact h.symm

/-- A Review built by the strict cafe filter carries rating 5. -/
theorem filterRealOne_rating {env : NetEnv} {sd ed : PyDate} {sn : String}
    {c : Item} {r : Review} (h : filterRealOne env sd ed sn c = some r) :
    r.rating = 5 := by
  unfold filterRealOne at h
  split at h
  · cases h
  · split at h
    · split at h
      · cases h
      · split at h
        · cases h
        · injection h with h; subst h; rfl
    · cases h

/-- Every Review collected by the strict cafe filter loop, beyond ones
already in the accumulator, carries rating 5. -/
theorem filterRealAux_rating (env : NetEnv) (sd ed : PyDate) (sn : String)
    (mx : Nat) :
    ∀ (cs : List Item) (acc : List Review) (pc : Nat),
      (∀ r ∈ acc, r.rating = 5) →
      ∀ r ∈ filterRealAux env sd ed sn mx cs acc pc, r.rating = 5 := by
  intro cs
  induction cs with
  | nil => intro acc pc hacc; simpa [filterRealAux] using hacc
  | cons c cs ih =>
    intro acc pc hacc r hr
    simp only [filterRealAux] at hr
    split at hr
    · exact hacc r hr
    · cases hone : filterRealOne env sd ed sn c with
      | some v =>
        rw [hone] at hr
        refine ih (acc ++ [v]) (pc + 1) ?_ r hr
        intro x hx
        rcases List.mem_append.1 hx with hx | hx
        · exact hacc x hx
        · rw [List.mem_singleton.1 hx]; exact filterRealOne_rating hone
      | none =>
        rw [hone] at hr
        exact ih acc (pc + 1) hacc r hr

/-- C7: the actual rating policy of every Review builder reached from
`crawl_service_by_selection`.  Google Play passes the source score
through unclamped, defaulting to 3 when it is missing; the App Store
branch passes `int(rating_elem.text)` through unclamped, defaulting to
3 when the element is absent; blog and cafe Reviews always carry 5.
No builder clamps to [1,5]. -/
theorem review_rating_policy :
    (∀ sid i ca u s c, (googleReviewOf sid i ca u s c).rating = s.getD 3) ∧
    (∀ sid i ca r, (crawlAppleReviewOf sid i ca r).rating = r.score) ∧
    (∀ df ni nd e p, appleProcessOne df ni nd e = some p →
      (match e.ratingText with | some t => pyInt? t | none => some 3) = some p.score) ∧
    (∀ sid uid iso ct cd pd l, (blogReviewOf sid uid iso ct cd pd l).rating = 5) ∧
    (∀ sid sn df b r, blogItemToReview sid sn df b = some r → r.rating = 5) ∧
    (∀ env sn sid c r, cafeNoFilterOne env sn sid c = some r → r.rating = 5) ∧
    (∀ env cafes sd ed sn mx r,
      r ∈ filter_cafe_by_real_date_only env cafes sd ed sn mx → r.rating = 5) := by
  refine ⟨fun _ _ _ _ _ _ => rfl, fun _ _ _ _ => rfl, ?_, fun _ _ _ _ _ _ _ => rfl,
    ?_, ?_, ?_⟩
  · intro df ni nd e p h
    unfold appleProcessOne at h
    split at h
    · cases h
    · rename_i rating heq
      rw [heq, appleDateGate_some h]
  · intro sid sn df b r h
    unfold blogItemToReview at h
    split at h
    · cases h
    · split at h
      · cases h
      · injection h with h; subst h; rfl
  · intro env sn sid c r h
    unfold cafeNoFilterOne at h
    split at h
    · cases h
    · split at h
      · cases h
      · split at h
        · cases h
        · injection h with h; subst h; rfl
  · intro env cafes sd ed sn mx r hr
    exact filterRealAux_rating env sd ed sn mx cafes [] 0
      (fun x hx => absurd hx (List.not_mem_nil x)) r hr

/-- C7 counterexample: an App Store entry whose rating element reads
"7" yields a Review with rating 7 — the claimed clamp to [1,5] does not
exist. -/
theorem apple_rating_not_clamped :
    ((crawl_apple_store 100 none "2025-01-01T00:00:00" ⟨2025, 1, 1⟩
        [{}, { ratingText := some "7", title := some "t",
               updated := some "2025-01-01T00:00:00" }]).map
      (fun p => (crawlAppleReviewOf "ixio" 0 "2025-01-01T00:00:00" p).rating))
      = [7] ∧ ¬((7 : Int) ≤ 5) := by
  constructor
  · rfl
  · decide

/-- C7 witness: the rating-parse clause applied at a concrete entry. -/
theorem review_rating_policy_witness :
    appleProcessOne none "2025-01-01T00:00:00" ⟨2025, 1, 1⟩
        { ratingText := some "7", title := some "t",
          updated := some "2025-01-01T00:00:00" }
      = some ⟨"익명", 7, "t", "2025-01-01T00:00:00", "t"⟩ ∧
    (match ({ ratingText := some "7", title := some "t",
              updated := some "2025-01-01T00:00:00" } : AppleEntry).ratingText with
     | some t => pyInt? t
     | none => some 3)
      = some (⟨"익명", 7, "t", "2025-01-01T00:00:00", "t"⟩ : AppleProc).score :=
  ⟨rfl, review_rating_policy.2.2.1 none "2025-01-01T00:00:00" ⟨2025, 1, 1⟩
    { ratingText := some "7", title := some "t", updated := some "2025-01-01T00:00:00" }
    ⟨"익명", 7, "t", "2025-01-01T00:00:00", "t"⟩ rfl⟩

/-- A concrete environment in which every adapter returns nothing. -/
def envTrivial : CrawlEnv :=
  { net := { get := fun _ => none, headLastModified := fun _ => none, today := ⟨2025, 1, 1⟩ }
    googleProcessed := []
    googleFixedAt := fun s => s
    appleEntries := []
    appleFixedAt := fun s => s
    nowIso := "2025-01-01T00:00:00"
    naverResp := fun _ _ => []
    dateFilter := none }

/-- C8: an unknown service name fails fast: `crawl_service_by_selection`
raises the descriptive `ValueError` of line 42 before any source is
contacted, whatever the channel selection, count and environment. -/
theorem crawl_unknown_service_fails (service_name : String) (ch : Channels)
    (review_count : Nat) (env : CrawlEnv)
    (h : services.lookup service_name = none) :
    crawl_service_by_selection service_name ch review_count env =
      Except.error "유효하지 않은 서비스명입니다." := by
  unfold crawl_service_by_selection
  rw [h]
  rfl

/-- C8 witness: a concrete unknown service name is rejected. -/
theorem crawl_unknown_service_fails_witness :
    services.lookup "없는서비스" = none ∧
    crawl_service_by_selection "없는서비스" {} 100 envTrivial =
      Except.error "유효하지 않은 서비스명입니다." :=
  ⟨rfl, crawl_unknown_service_fails "없는서비스" {} 100 envTrivial rfl⟩

/-- C8 counterexample: an empty channel selection on a valid service is
not an error — the crawler returns the empty result dict. -/
theorem crawl_empty_selection_no_error :
    crawl_service_by_selection "ixio" {} 100 envTrivial = Except.ok [] := rfl

/-- C3: the advanced date filter fabricates dates.  For an item whose
title and description carry no date evidence at all, the date handed to
the range check is the pure ID-position estimate of
`extract_real_cafe_date` (here: post id 9000000 maps to `today`), and
the item passes the date-range filter with that fabricated date as its
`createdAt`. -/
theorem advanced_filter_accepts_estimated_date :
    extract_real_cafe_date
      { title := "소상공인 계산대 앱 질문", description := "계산대 연동 어떻게 하나요",
        link := "https://cafe.naver.com/somecafe/9000000", cafename := some "somecafe" }
      ⟨2025, 7, 22⟩ = ⟨2025, 7, 22⟩ ∧
    (filter_cafe_by_advanced_date ⟨2025, 7, 22⟩
        [{ title := "소상공인 계산대 앱 질문", description := "계산대 연동 어떻게 하나요",
           link := "https://cafe.naver.com/somecafe/9000000", cafename := some "somecafe" }]
        ⟨2025, 7, 19⟩ ⟨2025, 7, 22⟩ "" 50).map (fun r => r.createdAt)
      = ["2025-07-22T00:00:00.000Z"] := by
  exact ⟨rfl, rfl⟩
